import Mathlib

/-!
Verification of the protocol translator in `src/openai_to_claude.ts` of
okamototk/openai2claude-proxy.

The TypeScript source is shallowly embedded: optional fields (`x?: T` or
`T | undefined`) become `Option`, `T | null` also becomes `Option` (a field
declared `x?: string | null` becomes `Option (Option String)`, the outer
layer for `undefined`, the inner for `null`), `unknown` values become a
small `Json` inductive, and JavaScript truthiness tests are made explicit.
`JSON.parse` is not reimplemented: every definition that needs it takes an
arbitrary function `jp : String → Option Json` (`none` models a thrown
parse error), and every theorem is proved for all such functions, since no
verified property depends on the result of parsing.
-/

/-- JSON values, modelling TypeScript `unknown` payloads that flow through
the translator (tool inputs, metadata, web-search results). Numbers are
modelled as rationals since the translator never computes with them. -/
inductive Json where
  | null : Json
  | bool (b : Bool) : Json
  | num (n : Rat) : Json
  | str (s : String) : Json
  | arr (items : List Json) : Json
  | obj (fields : List (String × Json)) : Json
deriving Repr

/-- JavaScript truthiness of a JSON value: `null`, `false`, `0` and `""`
are falsy, objects and arrays are always truthy. -/
def Json.isTruthy : Json → Bool
  | .null => false
  | .bool b => b
  | .num n => n ≠ 0
  | .str s => s ≠ ""
  | .arr _ => true
  | .obj _ => true

/-- `Object.keys(x).length` for a JSON value, as JavaScript computes it:
field count for objects, element count for arrays, character count for
strings (string indices are enumerable), `0` for primitives. -/
def Json.keysCount : Json → Nat
  | .obj fields => fields.length
  | .arr items => items.length
  | .str s => s.length
  | _ => 0

/-- Field lookup on a JSON object (first binding wins), `none` on
non-objects, modelling JavaScript property access on an `unknown` cast. -/
def Json.getField (j : Json) (key : String) : Option Json :=
  match j with
  | .obj fields => (fields.find? (fun p => p.1 = key)).map (fun p => p.2)
  | _ => none

/-- Read a JSON field expected to be a number (used for fields consumed
through a `as { max_results?: number }`-style cast). -/
def Json.getNumField (j : Json) (key : String) : Option Rat :=
  match j.getField key with
  | some (.num n) => some n
  | _ => none

/-- Read a JSON field expected to be a string. -/
def Json.getStrField (j : Json) (key : String) : Option String :=
  match j.getField key with
  | some (.str s) => some s
  | _ => none

/-- Escape a character for the simplified `JSON.stringify` model. -/
def escapeChar (c : Char) : String :=
  if c = '"' then "\\\"" else if c = '\\' then "\\\\" else String.singleton c

mutual
/-- `JSON.stringify` for the `Json` model (string escaping limited to
quotes and backslashes; no theorem inspects the produced characters). -/
def Json.stringify : Json → String
  | .null => "null"
  | .bool b => if b then "true" else "false"
  | .num n => toString n
  | .str s => "\"" ++ (s.toList.map escapeChar).foldr (· ++ ·) "" ++ "\""
  | .arr items => "[" ++ String.intercalate "," (stringifyList items) ++ "]"
  | .obj fields => "\x7b" ++ String.intercalate "," (stringifyFields fields) ++ "\x7d"

def Json.stringifyList : List Json → List String
  | [] => []
  | j :: rest => j.stringify :: stringifyList rest

def Json.stringifyFields : List (String × Json) → List String
  | [] => []
  | (k, v) :: rest => ("\"" ++ k ++ "\":" ++ v.stringify) :: stringifyFields rest
end

/-- JavaScript truthiness of an optional string: present and non-empty. -/
def isTruthyStr : Option String → Bool
  | some s => s ≠ ""
  | none => false

/-- `a || b` for `a : string | undefined` and a string default `b`:
falls through on `undefined` and on the empty string. -/
def jsOrString (a : Option String) (b : String) : String :=
  match a with
  | some s => if s = "" then b else s
  | none => b

/-- `x || null` for `x : string | null | undefined`: any falsy value
(absent, `null`, or `""`) collapses to `null`. -/
def jsOrNull (v : Option (Option String)) : Option String :=
  match v with
  | some (some s) => if s = "" then none else some s
  | _ => none

/-- Substring test, modelling JavaScript `s.includes(pat)`: the empty
pattern is always contained, a non-empty pattern occurs iff splitting on
it yields at least two pieces. -/
def strIncludes (s pat : String) : Bool :=
  pat = "" || (s.splitOn pat).length ≥ 2

/-! ## Data model -/

/-- Front-Protocol (Claude) content blocks, from `ClaudeMessageContent`.
Optional `signature` fields are present only when the source spread
included them. -/
inductive ClaudeMessageContent where
  | text (text : String)
  | tool_use (id name : String) (input : Json)
  | tool_result (tool_use_id content : String)
  | thinking (thinking : String) (signature : Option String)
  | redacted_thinking (data : String) (signature : Option String)
  | image (sourceType : String) (media_type data url : Option String)
deriving Repr

/-- Front-Protocol usage record, restricted to the fields the translator
ever writes (`mapOpenAIUsageToClaude` sets the token fields,
`attachToolUseUsage` may add `server_tool_use.web_search_requests`). -/
structure ClaudeUsage where
  input_tokens : Option Nat := none
  output_tokens : Option Nat := none
  reasoning_tokens : Option Nat := none
  server_tool_use : Option Nat := none
deriving Repr, DecidableEq

/-- Back-Protocol usage record, from `OpenAIUsage`. -/
structure OpenAIUsage where
  input_tokens : Option Nat := none
  output_tokens : Option Nat := none
  total_tokens : Option Nat := none
  prompt_tokens : Option Nat := none
  completion_tokens : Option Nat := none
  reasoning_tokens : Option Nat := none
deriving Repr, DecidableEq

/-- A content block nested inside a non-streaming Back-Protocol message
item (the inline content type of the `type: "message"` branch of
`OpenAIResponseItem`): a required `type` discriminant string and the
optional fields that branch declares. -/
structure MsgBlock where
  type : String
  text : Option String := none
  reasoning : Option String := none
  summary : Option String := none
  signature : Option String := none
  data : Option String := none
  call_id : Option String := none
  name : Option String := none
  arguments : Option String := none
  results : Option Json := none
  output : Option Json := none
  content : Option Json := none
deriving Repr

/-- Top-level output items of a non-streaming Back-Protocol response, from
`OpenAIResponseItem`. Field optionality follows the source type: the
standalone `function_call` item declares `call_id`, `name` and `arguments`
as required, while the web-search and reasoning items have optional
fields. -/
inductive OpenAIResponseItem where
  | message (id : String) (content : Option (List MsgBlock))
      (stop_reason : Option (Option String))
  | function_call (id call_id name arguments : String)
  | web_search_call (id call_id arguments query : Option String)
      (max_results : Option Rat) (search_context_size : Option String)
      (user_location : Option Json)
  | web_search_result (id call_id : Option String)
      (content results output : Option Json) (text : Option String)
  | reasoning (isOutputVariant : Bool) (id text reasoningText summary signature : Option String)
  | redacted_reasoning (id : Option String) (data : String) (signature : Option String)
deriving Repr

/-- Non-streaming Back-Protocol response, from `OpenAIResponse`. -/
structure OpenAIResponse where
  id : String
  created_at : Rat := 0
  model : String
  output : List OpenAIResponseItem
  usage : Option OpenAIUsage := none
deriving Repr

/-- Front-Protocol response, from `ClaudeResponse` (the constant
`type: "message"` / `role: "assistant"` literals are not modelled). -/
structure ClaudeResponse where
  id : String
  content : List ClaudeMessageContent
  model : String
  stop_reason : Option String
  stop_sequence : Option String
  usage : Option ClaudeUsage
deriving Repr

/-! ## Simple helpers from the source -/

/-- `mapOpenAIUsageToClaude` from the source: `??`-chains become
`Option.orElse`. -/
def mapOpenAIUsageToClaude (usage : Option OpenAIUsage) : Option ClaudeUsage :=
  match usage with
  | none => none
  | some u => some
      { input_tokens := u.input_tokens <|> u.prompt_tokens
        output_tokens := u.output_tokens <|> u.completion_tokens
        reasoning_tokens := u.reasoning_tokens }

/-- The duck-typed view `mapReasoningBlockToClaude` receives (the source
takes `{ type?, text?, reasoning?, summary?, signature?, data? }`). -/
structure RBlock where
  type : Option String := none
  text : Option String := none
  reasoning : Option String := none
  summary : Option String := none
  signature : Option String := none
  data : Option String := none
deriving Repr

/-- `mapReasoningBlockToClaude` from the source: the thinking text is
`block.text ?? block.reasoning ?? block.summary ?? ""` and the signature
is spread in only when truthy. -/
def mapReasoningBlockToClaude (block : RBlock) : Option ClaudeMessageContent :=
  if block.type = some "reasoning" ∨ block.type = some "output_reasoning" then
    some (.thinking ((block.text <|> block.reasoning <|> block.summary).getD "")
      (if isTruthyStr block.signature then block.signature else none))
  else if block.type = some "redacted_reasoning" ∧ isTruthyStr block.data then
    some (.redacted_thinking (block.data.getD "")
      (if isTruthyStr block.signature then block.signature else none))
  else
    none

/-- `getReasoningText` from the source. -/
def getReasoningText (text reasoningText summary : Option String) : String :=
  (text <|> reasoningText <|> summary).getD ""

/-- `getWebSearchCallId` from the source: `block.call_id || block.id ||
"web_search"`. -/
def getWebSearchCallId (call_id id : Option String) : String :=
  jsOrString call_id (jsOrString id "web_search")

/-- Insert into the insertion-ordered list modelling the `Set<string>` of
web-search call ids (`Set.add` is a no-op on an element already present). -/
def addUnique (ids : List String) (x : String) : List String :=
  if x ∈ ids then ids else ids ++ [x]

/-- One step of the id/fallback accumulation in `countWebSearchRequests`:
`if (callId) ids.add(callId); else fallbackCount += 1`. -/
def recordCallId (acc : List String × Nat) (callId : String) : List String × Nat :=
  if callId ≠ "" then (addUnique acc.1 callId, acc.2) else (acc.1, acc.2 + 1)

/-- The nested-block scan of `countWebSearchRequests`. -/
def scanBlocksForWebSearch (acc : List String × Nat) : List MsgBlock → List String × Nat
  | [] => acc
  | b :: rest =>
      let acc' :=
        if b.type = "web_search_call" ∨ b.type = "web_search_result" then
          recordCallId acc (getWebSearchCallId b.call_id none)
        else acc
      scanBlocksForWebSearch acc' rest

/-- The per-item scan of `countWebSearchRequests`: top-level web-search
items first, then blocks nested in a message item. Nested blocks have no
`id` field in the source type, so their call id falls back from `call_id`
directly to the `"web_search"` sentinel. -/
def scanItemsForWebSearch (acc : List String × Nat) : List OpenAIResponseItem → List String × Nat
  | [] => acc
  | item :: rest =>
      let acc' :=
        match item with
        | .web_search_call id call_id _ _ _ _ _ => recordCallId acc (getWebSearchCallId call_id id)
        | .web_search_result id call_id _ _ _ _ => recordCallId acc (getWebSearchCallId call_id id)
        | .message _ (some blocks) _ => scanBlocksForWebSearch acc blocks
        | _ => acc
      scanItemsForWebSearch acc' rest

/-- `countWebSearchRequests` from the source: distinct recorded ids if any,
otherwise the fallback occurrence count. -/
def countWebSearchRequests (items : Option (List OpenAIResponseItem)) : Nat :=
  match items with
  | none => 0
  | some its =>
      let acc := scanItemsForWebSearch ([], 0) its
      if acc.1.length > 0 then acc.1.length else acc.2

/-- `attachToolUseUsage` from the source: `undefined` stays `undefined`
only when there is nothing to attach; otherwise the usage is spread and
`server_tool_use` added when the counter is positive. -/
def attachToolUseUsage (usage : Option ClaudeUsage) (webSearchRequests : Nat) :
    Option ClaudeUsage :=
  if usage = none ∧ webSearchRequests = 0 then usage
  else
    let base := usage.getD {}
    some { base with
      server_tool_use :=
        if webSearchRequests > 0 then some webSearchRequests else base.server_tool_use }

/-- Per-model token limits, from `GPT5_MODEL_CONFIG`. -/
structure ModelConfig where
  contextWindow : Nat
  maxInput : Nat
  maxOutput : Nat
deriving Repr, DecidableEq

/-- `GPT5_MODEL_CONFIG` from the source, as an insertion-ordered record. -/
def GPT5_MODEL_CONFIG : List (String × ModelConfig) :=
  [ ("gpt-5.2", ⟨400000, 272000, 128000⟩)
  , ("gpt-5.2-thinking", ⟨400000, 272000, 128000⟩)
  , ("gpt-5.3-codex", ⟨400000, 272000, 128000⟩)
  , ("gpt-5-mini", ⟨400000, 272000, 128000⟩)
  , ("gpt-5-pro", ⟨1000000, 728000, 272000⟩) ]

/-- `getDownstreamConfig` from the source: the first table key that is a
substring of the model name. -/
def getDownstreamConfig (model : String) : Option ModelConfig :=
  match GPT5_MODEL_CONFIG.find? (fun p => strIncludes model p.1) with
  | some p => some p.2
  | none => none

/-- `mapFinishReason` from the source; `!reason` is true for both `null`
and the empty string. -/
def mapFinishReason (reason : Option String) : Option String :=
  match reason with
  | none => none
  | some r =>
      if r = "" then none
      else if r = "stop" then some "end_turn"
      else if r = "length" then some "max_tokens"
      else if r = "tool_calls" then some "tool_use"
      else some r

/-- `safeJsonParse` from the source, parameterised by the parse function:
falsy input (`undefined` or `""`) yields `null`, and a throwing parse is
modelled by `jp` returning `none`. -/
def safeJsonParse (jp : String → Option Json) (value : Option String) : Option Json :=
  match value with
  | none => none
  | some s => if s = "" then none else jp s

/-- `parseToolArguments` from the source: `safeJsonParse(value) ?? {}`. -/
def parseToolArguments (jp : String → Option Json) (value : Option String) : Json :=
  (safeJsonParse jp value).getD (.obj [])

/-- `stringifyToolResult` from the source: absent/`null` becomes `""`,
strings pass through, everything else is JSON-encoded. -/
def stringifyToolResult (value : Option Json) : String :=
  match value with
  | none => ""
  | some .null => ""
  | some (.str s) => s
  | some v => v.stringify

/-- `mapBudgetTokensToEffort` from the source. Budgets are JavaScript
numbers, modelled as rationals. -/
def mapBudgetTokensToEffort (budgetTokens : Rat) : String :=
  if budgetTokens ≥ 10000 then "high"
  else if budgetTokens ≥ 5000 then "medium"
  else "low"

/-! ## Non-streaming response translation (`mapOpenAIToClaude`) -/

/-- View of a nested message-content block as the duck-typed argument of
`mapReasoningBlockToClaude`. -/
def MsgBlock.toRBlock (b : MsgBlock) : RBlock :=
  { type := some b.type, text := b.text, reasoning := b.reasoning
    summary := b.summary, signature := b.signature, data := b.data }

/-- `buildWebSearchInput` from the source: a truthy parsed `arguments`
payload wins, otherwise an object is assembled from whichever discrete
fields are present (in source order). -/
def buildWebSearchInput (jp : String → Option Json)
    (arguments query : Option String) (max_results : Option Rat)
    (search_context_size : Option String) (user_location : Option Json) : Json :=
  let assembled : Json := .obj
    ((query.map (fun q => ("query", Json.str q))).toList
      ++ (max_results.map (fun n => ("max_results", Json.num n))).toList
      ++ (search_context_size.map (fun s => ("search_context_size", Json.str s))).toList
      ++ (user_location.map (fun u => ("user_location", u))).toList)
  match safeJsonParse jp arguments with
  | some parsed => if parsed.isTruthy then parsed else assembled
  | none => assembled

/-- Translation of one block nested in the message item, following the
branch order of the source loop. The nested block type declares no `id`,
`query`, `max_results`, `search_context_size` or `user_location` fields,
so those read as absent where the shared helpers consult them. -/
def mapMessageBlock (jp : String → Option Json) (b : MsgBlock) : List ClaudeMessageContent :=
  if (b.type = "text" ∨ b.type = "output_text") ∧ isTruthyStr b.text then
    [.text (b.text.getD "")]
  else if b.type = "function_call" ∧ isTruthyStr b.call_id ∧ isTruthyStr b.name then
    [.tool_use (b.call_id.getD "") (b.name.getD "") (parseToolArguments jp b.arguments)]
  else if b.type = "web_search_call" then
    [.tool_use (getWebSearchCallId b.call_id none) "web_search"
      (buildWebSearchInput jp b.arguments none none none none)]
  else if b.type = "web_search_result" then
    [.tool_result (getWebSearchCallId b.call_id none)
      (stringifyToolResult (b.results <|> b.content <|> b.output <|> b.text.map Json.str))]
  else if b.type = "reasoning" ∨ b.type = "output_reasoning" ∨ b.type = "redacted_reasoning" then
    (mapReasoningBlockToClaude b.toRBlock).toList
  else []

/-- Concatenated translation of the message item's nested blocks. -/
def mapMessageBlocks (jp : String → Option Json) : List MsgBlock → List ClaudeMessageContent
  | [] => []
  | b :: rest => mapMessageBlock jp b ++ mapMessageBlocks jp rest

/-- Translation of one top-level output item (the second loop of
`mapOpenAIToClaude`); message items contribute nothing here. -/
def mapTopItem (jp : String → Option Json) : OpenAIResponseItem → List ClaudeMessageContent
  | .message _ _ _ => []
  | .function_call _ call_id name arguments =>
      [.tool_use call_id name (parseToolArguments jp (some arguments))]
  | .web_search_call id call_id arguments query max_results search_context_size user_location =>
      [.tool_use (getWebSearchCallId call_id id) "web_search"
        (buildWebSearchInput jp arguments query max_results search_context_size user_location)]
  | .web_search_result id call_id content results output text =>
      [.tool_result (getWebSearchCallId call_id id)
        (stringifyToolResult (results <|> content <|> output <|> text.map Json.str))]
  | .reasoning isOutputVariant _ text reasoningText summary signature =>
      (mapReasoningBlockToClaude
        { type := some (if isOutputVariant then "output_reasoning" else "reasoning")
          text := text, reasoning := reasoningText, summary := summary
          signature := signature }).toList
  | .redacted_reasoning _ data signature =>
      (mapReasoningBlockToClaude
        { type := some "redacted_reasoning", data := some data
          signature := signature }).toList

/-- Concatenated translation of all top-level output items. -/
def mapTopItems (jp : String → Option Json) : List OpenAIResponseItem → List ClaudeMessageContent
  | [] => []
  | item :: rest => mapTopItem jp item ++ mapTopItems jp rest

/-- `openai.output.find(item => item.type === "message")`. -/
def findMessageItem (output : List OpenAIResponseItem) : Option OpenAIResponseItem :=
  output.find? (fun it => match it with | .message _ _ _ => true | _ => false)

/-- `messageItem?.content` view: the nested blocks of the located message
item, when that item exists and carries a `content` array (a present but
empty array is truthy in JavaScript and therefore still mapped). -/
def messageItemBlocks (output : List OpenAIResponseItem) : Option (List MsgBlock) :=
  match findMessageItem output with
  | some (.message _ (some blocks) _) => some blocks
  | _ => none

/-- `messageItem?.stop_reason`: absent when there is no message item. -/
def messageItemStopReason (output : List OpenAIResponseItem) : Option (Option String) :=
  match findMessageItem output with
  | some (.message _ _ sr) => sr
  | _ => none

/-- The truncation override test of `mapOpenAIToClaude`:
`modelConfig && openai.usage?.output_tokens && openai.usage.output_tokens
>= modelConfig.maxOutput` (a reported count of `0` is falsy and therefore
never triggers the override). -/
def maxTokensOverride (openai : OpenAIResponse) (model : String) : Bool :=
  match getDownstreamConfig model, openai.usage with
  | some cfg, some u =>
      match u.output_tokens with
      | some o => o ≠ 0 && o ≥ cfg.maxOutput
      | none => false
  | _, _ => false

/-- `mapOpenAIToClaude` from the source. -/
def mapOpenAIToClaude (jp : String → Option Json) (openai : OpenAIResponse)
    (model : String) : ClaudeResponse :=
  let webSearchRequests := countWebSearchRequests (some openai.output)
  let contentNested :=
    match messageItemBlocks openai.output with
    | some blocks => mapMessageBlocks jp blocks
    | none => []
  let stopReason0 := mapFinishReason (jsOrNull (messageItemStopReason openai.output))
  { id := openai.id
    content := contentNested ++ mapTopItems jp openai.output
    model := model
    stop_reason := if maxTokensOverride openai model then some "max_tokens" else stopReason0
    stop_sequence := none
    usage := attachToolUseUsage (mapOpenAIUsageToClaude openai.usage) webSearchRequests }

/-! ## Request translation (`mapClaudeToOpenAI`) -/

/-- Roles of Front-Protocol messages. -/
inductive ClaudeRole where
  | user
  | assistant
deriving Repr, DecidableEq

/-- Message content: a plain string or a sequence of content blocks. -/
inductive ClaudeContent where
  | str (s : String)
  | blocks (bs : List ClaudeMessageContent)
deriving Repr

/-- Front-Protocol message, from `ClaudeMessage`. -/
structure ClaudeMessage where
  role : ClaudeRole
  content : ClaudeContent
deriving Repr

/-- Front-Protocol system prompt: a string or a sequence of text blocks
(each block modelled by its `text` payload). -/
inductive SystemPrompt where
  | str (s : String)
  | blocks (texts : List String)
deriving Repr

/-- The `thinking` directive of a Front-Protocol request. The source
accepts either a `budget_tokens` or a `budget` carrier and probes the keys
with the `in` operator; for JSON-derived data key presence coincides with
the field being defined. -/
structure ClaudeThinking where
  type : Option String := none
  budget_tokens : Option Rat := none
  budget : Option Rat := none
deriving Repr

/-- The `output_config` carrier of an explicit reasoning-effort string. -/
structure OutputConfig where
  effort : Option String := none
deriving Repr

/-- Front-Protocol tool declaration, from the `tools` entry type of
`ClaudeRequest`. -/
structure ClaudeTool where
  name : String
  description : Option String := none
  input_schema : Option Json := none
  type : Option String := none
  metadata : Option Json := none
deriving Repr

/-- Front-Protocol request, from `ClaudeRequest`. -/
structure ClaudeRequest where
  model : String
  messages : List ClaudeMessage
  max_tokens : Option Rat := none
  temperature : Option Rat := none
  top_p : Option Rat := none
  stop_sequences : Option (List String) := none
  stream : Option Bool := none
  system : Option SystemPrompt := none
  tools : Option (List ClaudeTool) := none
  tool_choice : Option Json := none
  thinking : Option ClaudeThinking := none
  output_config : Option OutputConfig := none
deriving Repr

/-- User-item content of a Back-Protocol request: a string or a list of
`input_text` blocks (modelled by their texts). The translator only ever
builds the string form. -/
inductive UserContent where
  | str (s : String)
  | blocks (texts : List String)
deriving Repr, DecidableEq

/-- Back-Protocol input items, from `OpenAIInputItem`. -/
inductive OpenAIInputItem where
  | system (content : String)
  | user (content : UserContent)
  | assistant (content : String)
deriving Repr, DecidableEq

/-- Back-Protocol reasoning field, from `OpenAIRequest["reasoning"]`. -/
structure OpenAIReasoning where
  effort : Option String := none
  summary : Option String := none
deriving Repr, DecidableEq

/-- Back-Protocol tool declarations, from the `tools` entry type of
`OpenAIRequest`: function-shaped or the native web-search shape. -/
inductive OpenAITool where
  | function (name : String) (description : Option String) (parameters : Option Json)
  | web_search (max_results : Option Rat) (search_context_size : Option String)
      (user_location : Option Json)
deriving Repr

/-- Back-Protocol request, from `OpenAIRequest` (the deprecated
`max_tokens` member is never populated by the translator and is not
modelled; the request type has no stop-sequence field). -/
structure OpenAIRequest where
  model : String
  input : List OpenAIInputItem
  max_output_tokens : Option Rat := none
  temperature : Option Rat := none
  top_p : Option Rat := none
  stream : Option Bool := none
  tools : Option (List OpenAITool) := none
  tool_choice : Option Json := none
  reasoning : Option OpenAIReasoning := none
deriving Repr

/-- `textFromContent` from the source: concatenation (join on `""`) of the
`text` payloads of the text blocks. -/
def textFromContent : ClaudeContent → String
  | .str s => s
  | .blocks bs =>
      String.join (bs.filterMap (fun b =>
        match b with
        | .text t => some t
        | _ => none))

/-- `extractToolResults` from the source, as `(tool_call_id, content)`
pairs. -/
def extractToolResults : ClaudeContent → List (String × String)
  | .str _ => []
  | .blocks bs =>
      bs.filterMap (fun b =>
        match b with
        | .tool_result id c => some (id, c)
        | _ => none)

/-- A Back-Protocol tool call as `formatToolCalls` consumes it. -/
structure OpenAIToolCall where
  id : String
  name : String
  arguments : String
deriving Repr, DecidableEq

/-- `formatToolCalls` from the source. -/
def formatToolCalls (calls : List OpenAIToolCall) : String :=
  String.intercalate "\n" (calls.map (fun call =>
    "[tool_call id=" ++ call.id ++ " name=" ++ call.name
      ++ " args=" ++ call.arguments ++ "]"))

/-- `formatToolCall` from the source. -/
def formatToolCall (call : OpenAIToolCall) : String :=
  formatToolCalls [call]

/-- `formatToolResults` from the source. -/
def formatToolResults (results : List (String × String)) : String :=
  String.intercalate "\n" (results.map (fun r =>
    "[tool_result id=" ++ r.1 ++ "]\n" ++ r.2))

/-- `value ?? {}` for a required `unknown` member: JSON `null` becomes the
empty object. -/
def jsonOrEmptyObj : Json → Json
  | .null => .obj []
  | v => v

/-- The line accumulator of the assistant-with-blocks branch: text blocks
verbatim, tool-use blocks as flattened call markers, thinking and
redacted-thinking blocks skipped (they are only logged), all other block
kinds ignored. -/
def assistantTextBlocks : List ClaudeMessageContent → List String
  | [] => []
  | .text t :: rest => t :: assistantTextBlocks rest
  | .tool_use id name input :: rest =>
      formatToolCall ⟨id, name, (jsonOrEmptyObj input).stringify⟩ :: assistantTextBlocks rest
  | _ :: rest => assistantTextBlocks rest

/-- The message loop of `mapClaudeToOpenAI`: each Front-Protocol message
contributes zero or one input item. -/
def buildInputItems : List ClaudeMessage → List OpenAIInputItem
  | [] => []
  | msg :: rest =>
      let items : List OpenAIInputItem :=
        match msg.role, msg.content with
        | .user, c =>
            let text := textFromContent c
            let toolResults := extractToolResults c
            let toolText := if toolResults.length > 0 then formatToolResults toolResults else ""
            let combined := String.intercalate "\n" (([text, toolText]).filter (fun s => s ≠ ""))
            if combined ≠ "" then [.user (.str combined)] else []
        | .assistant, .str s =>
            if s ≠ "" then [.assistant s] else []
        | .assistant, .blocks bs =>
            let assistantText := String.intercalate "\n" (assistantTextBlocks bs)
            if assistantText ≠ "" then [.assistant assistantText] else []
      items ++ buildInputItems rest

/-- The system-prompt handling of `mapClaudeToOpenAI`: join the block
texts (or take the string), emit one system item when the result is
non-empty. A falsy (`""`) system string short-circuits the outer guard in
the source; either way no item is produced. -/
def systemItems (sys : Option SystemPrompt) : List OpenAIInputItem :=
  match sys with
  | none => []
  | some sp =>
      let systemText := match sp with
        | .str s => s
        | .blocks texts => String.join texts
      if systemText ≠ "" then [.system systemText] else []

/-- `schema?.properties?.[field]?.[kind]` lookups used by
`extractWebSearchToolConfig` for the `default`/`const` fallbacks. -/
def schemaPropValue (input_schema : Option Json) (field kind : String) : Option Json :=
  match input_schema with
  | some js =>
      match js.getField "properties" with
      | some props =>
          match props.getField field with
          | some f => f.getField kind
          | none => none
      | none => none
  | none => none

/-- A numeric schema-property fallback (`default` then `const`), read
through the source's `as number | undefined` cast. -/
def schemaNumValue (input_schema : Option Json) (field : String) : Option Rat :=
  (match schemaPropValue input_schema field "default" with
    | some (.num n) => some n
    | _ => none)
  <|> (match schemaPropValue input_schema field "const" with
    | some (.num n) => some n
    | _ => none)

/-- A string schema-property fallback (`default` then `const`). -/
def schemaStrValue (input_schema : Option Json) (field : String) : Option String :=
  (match schemaPropValue input_schema field "default" with
    | some (.str s) => some s
    | _ => none)
  <|> (match schemaPropValue input_schema field "const" with
    | some (.str s) => some s
    | _ => none)

/-- Metadata field lookups through the source's structural cast. -/
def metadataNumField (metadata : Option Json) (key : String) : Option Rat :=
  match metadata with
  | some m => m.getNumField key
  | none => none

/-- Metadata string field lookup. -/
def metadataStrField (metadata : Option Json) (key : String) : Option String :=
  match metadata with
  | some m => m.getStrField key
  | none => none

/-- Metadata raw field lookup (`user_location` carries arbitrary JSON). -/
def metadataRawField (metadata : Option Json) (key : String) : Option Json :=
  match metadata with
  | some m => m.getField key
  | none => none

/-- `extractWebSearchToolConfig` from the source. The first element of
each source chain (`tool.max_results` etc.) reads a field the
`ClaudeRequest` tool type does not declare, so it contributes nothing and
the chain starts at the metadata lookup. -/
def extractWebSearchToolConfig (tool : ClaudeTool) :
    Option Rat × Option String × Option Json :=
  ( metadataNumField tool.metadata "max_results"
      <|> schemaNumValue tool.input_schema "max_results"
  , metadataStrField tool.metadata "search_context_size"
      <|> schemaStrValue tool.input_schema "search_context_size"
  , metadataRawField tool.metadata "user_location"
      <|> (schemaPropValue tool.input_schema "user_location" "default"
            <|> schemaPropValue tool.input_schema "user_location" "const") )

/-- The tools mapping of `mapClaudeToOpenAI`: drop unnamed tools, send the
reserved web-search tool (detected by name or declared type) in native
shape, everything else function-shaped. -/
def mapRequestTools (tools : List ClaudeTool) : List OpenAITool :=
  (tools.filter (fun tool => tool.name ≠ "")).map (fun tool =>
    if tool.name = "web_search" ∨ tool.type = some "web_search" then
      let cfg := extractWebSearchToolConfig tool
      .web_search cfg.1 cfg.2.1 cfg.2.2
    else
      .function tool.name tool.description tool.input_schema)

/-- The thinking-budget extraction of `mapClaudeToOpenAI`:
`budget_tokens` when that key is present, else `budget`. -/
def thinkingBudgetOf (req : ClaudeRequest) : Option Rat :=
  match req.thinking with
  | none => none
  | some t => t.budget_tokens <|> t.budget

/-- `mapClaudeToOpenAI` from the source. -/
def mapClaudeToOpenAI (req : ClaudeRequest) (upstreamModel : String) : OpenAIRequest :=
  let messages := systemItems req.system ++ buildInputItems req.messages
  let inferredEffort := (thinkingBudgetOf req).map mapBudgetTokensToEffort
  let explicitEffort : Option String :=
    match req.output_config with
    | some oc => oc.effort
    | none => none
  let effortField : Option String :=
    if isTruthyStr explicitEffort then explicitEffort else inferredEffort
  { model := upstreamModel
    input := messages
    max_output_tokens := req.max_tokens.map (fun v => max 16 v)
    temperature := req.temperature
    top_p := req.top_p
    stream := req.stream
    tools := req.tools.map mapRequestTools
    tool_choice := req.tool_choice
    reasoning := effortField.map (fun e => { effort := some e }) }

/-! ## Streaming reconstruction engine (`createClaudeStream`)

The engine reads the upstream byte stream, splits on newlines, and keeps
the trailing partial line in a buffer. The embedding works at the line
level: the input is the list of complete lines seen by the loop body plus
a flag telling whether the final buffered line is a `data: [DONE]` frame
(any other buffered content — including a complete JSON frame that never
got its newline — is ignored by the source). Each complete line is
classified by its lexical shape: not a `data:` line, the `[DONE]` payload,
a payload `JSON.parse` rejects, or a parsed frame. -/

/-- The `delta` payload the source reads through a cast for
reasoning/redacted delta events. -/
structure DeltaPayload where
  type : Option String := none
  thinking : Option String := none
  signature : Option String := none
  data : Option String := none
deriving Repr

/-- A content block nested in a streaming output item (the inline
`content` entry type of the frame's `output` items). Unlike the
non-streaming nested block it declares `query`/`max_results`/
`search_context_size`/`user_location`/`results`/`output`, but no `id` and
no `content`. -/
structure SBlock where
  type : Option String := none
  text : Option String := none
  reasoning : Option String := none
  summary : Option String := none
  signature : Option String := none
  data : Option String := none
  call_id : Option String := none
  name : Option String := none
  arguments : Option String := none
  query : Option String := none
  max_results : Option Rat := none
  search_context_size : Option String := none
  user_location : Option Json := none
  results : Option Json := none
  output : Option Json := none
deriving Repr

/-- A streaming output item: every field is optional, including the
`type` discriminant. -/
structure SItem where
  type : Option String := none
  id : Option String := none
  call_id : Option String := none
  name : Option String := none
  arguments : Option String := none
  stop_reason : Option (Option String) := none
  query : Option String := none
  max_results : Option Rat := none
  search_context_size : Option String := none
  user_location : Option Json := none
  results : Option Json := none
  output : Option Json := none
  text : Option String := none
  reasoning : Option String := none
  summary : Option String := none
  signature : Option String := none
  data : Option String := none
  content : Option (List SBlock) := none
deriving Repr

/-- A parsed streaming frame (`json` in the source loop, including the
`delta` member read through a cast). -/
structure StreamJson where
  id : Option String := none
  type : Option String := none
  stop_reason : Option (Option String) := none
  usage : Option OpenAIUsage := none
  output : Option (List SItem) := none
  delta : Option DeltaPayload := none
deriving Repr

/-- A complete input line, classified lexically. -/
inductive SseLine where
  | notData
  | doneFrame
  | malformed
  | frame (j : StreamJson)
deriving Repr

/-- The kind of content block opened by a `content_block_start` event. -/
inductive ContentBlockKind where
  | text
  | thinking
  | redactedThinking
  | toolUse (id name : String)
  | toolResult (tool_use_id : String)
deriving Repr, DecidableEq

/-- Delta payloads of `content_block_delta` events. -/
inductive DeltaKind where
  | textDelta (text : String)
  | thinkingDelta (thinking : String)
  | redactedThinkingDelta (data : String)
  | signatureDelta (signature : String)
  | inputJsonDelta (partial_json : String)
deriving Repr, DecidableEq

/-- The Front-Protocol stream events the engine emits. -/
inductive StreamEvent where
  | message_start (id : String) (usage : Option ClaudeUsage)
  | content_block_start (index : Nat) (kind : ContentBlockKind)
  | content_block_delta (index : Nat) (delta : DeltaKind)
  | content_block_stop (index : Nat)
  | message_delta (stop_reason : Option String) (usage : Option ClaudeUsage)
  | message_stop
deriving Repr, DecidableEq

/-- The mutable closure state of `createClaudeStream`, as one record. -/
structure StreamState where
  sentMessageStart : Bool := false
  messageId : String := ""
  contentBlockIndex : Nat := 0
  usage : Option OpenAIUsage := none
  stopReason : Option String := none
  pending : Option Nat := none
  webSearchCallIds : List String := []
  webSearchFallbackCount : Nat := 0
deriving Repr

/-- `recordWebSearch` from the source. -/
def recordWebSearch (s : StreamState) (call_id id : Option String) : StreamState :=
  let callId := getWebSearchCallId call_id id
  if callId ≠ "" then
    { s with webSearchCallIds := addUnique s.webSearchCallIds callId }
  else
    { s with webSearchFallbackCount := s.webSearchFallbackCount + 1 }

/-- `getWebSearchRequestCount` from the source. -/
def getWebSearchRequestCount (s : StreamState) : Nat :=
  if s.webSearchCallIds.length > 0 then s.webSearchCallIds.length
  else s.webSearchFallbackCount

/-- The `content_block_stop` emitted for a pending block, if any. -/
def closePendingEvents (s : StreamState) : List StreamEvent :=
  match s.pending with
  | some p => [.content_block_stop p]
  | none => []

/-- The shared shape of every block-opening site in the source: close the
pending block, emit `content_block_start` at the current index followed by
the given deltas, record the new block as pending and advance the index. -/
def openBlock (s : StreamState) (kind : ContentBlockKind) (deltas : List DeltaKind) :
    List StreamEvent × StreamState :=
  ( closePendingEvents s
      ++ [.content_block_start s.contentBlockIndex kind]
      ++ deltas.map (.content_block_delta s.contentBlockIndex)
  , { s with pending := some s.contentBlockIndex
             contentBlockIndex := s.contentBlockIndex + 1 } )

/-- The signature delta emitted by the thinking-block helpers when the
signature is truthy. -/
def signatureDeltas (signature : Option String) : List DeltaKind :=
  if isTruthyStr signature then [.signatureDelta (signature.getD "")] else []

/-- `sendThinkingBlock` from the source. -/
def sendThinkingBlock (s : StreamState) (thinkingText : String)
    (signature : Option String) : List StreamEvent × StreamState :=
  openBlock s .thinking
    ((if thinkingText ≠ "" then [.thinkingDelta thinkingText] else [])
      ++ signatureDeltas signature)

/-- `sendRedactedThinkingBlock` from the source. -/
def sendRedactedThinkingBlock (s : StreamState) (data : String)
    (signature : Option String) : List StreamEvent × StreamState :=
  openBlock s .redactedThinking
    ((if data ≠ "" then [.redactedThinkingDelta data] else [])
      ++ signatureDeltas signature)

/-- `handleReasoningBlock` from the source; `none` models the `false`
return that lets the caller fall through to the next branch. -/
def handleReasoningBlock (s : StreamState) (b : RBlock) :
    Option (List StreamEvent × StreamState) :=
  if b.type = some "redacted_reasoning" ∧ isTruthyStr b.data then
    some (sendRedactedThinkingBlock s (b.data.getD "") b.signature)
  else if b.type = some "reasoning" ∨ b.type = some "output_reasoning" then
    some (sendThinkingBlock s (getReasoningText b.text b.reasoning b.summary) b.signature)
  else none

/-- `handleThinkingDelta` from the source: with no pending block the event
is not handled (`none`) and the frame falls through to normal
processing. -/
def handleThinkingDelta (s : StreamState) (d : DeltaPayload) :
    Option (List StreamEvent) :=
  match s.pending with
  | none => none
  | some p => some
      ((if isTruthyStr d.thinking then
          [.content_block_delta p (.thinkingDelta (d.thinking.getD ""))] else [])
        ++ (if isTruthyStr d.data then
          [.content_block_delta p (.redactedThinkingDelta (d.data.getD ""))] else [])
        ++ (if isTruthyStr d.signature then
          [.content_block_delta p (.signatureDelta (d.signature.getD ""))] else []))

/-- `maybeHandleReasoningEvent` from the source. -/
def maybeHandleReasoningEvent (s : StreamState) (eventType : Option String)
    (delta : Option DeltaPayload) : Option (List StreamEvent) :=
  match eventType with
  | none => none
  | some t =>
      if strIncludes t "reasoning" || strIncludes t "redacted" then
        match delta with
        | some d => handleThinkingDelta s d
        | none => none
      else none

/-- The `partial_json` computation shared by the web-search-call sites:
`arguments || (truthy toolInput with keys ? JSON.stringify(toolInput) :
"")`. -/
def webSearchPartialJson (arguments : Option String) (toolInput : Json) : String :=
  jsOrString arguments
    (if toolInput.isTruthy ∧ toolInput.keysCount > 0 then toolInput.stringify else "")

/-- The duck-typed reasoning view of a nested streaming block. -/
def SBlock.toRBlock (b : SBlock) : RBlock :=
  { type := b.type, text := b.text, reasoning := b.reasoning
    summary := b.summary, signature := b.signature, data := b.data }

/-- The duck-typed reasoning view of a streaming item. -/
def SItem.toRBlock (it : SItem) : RBlock :=
  { type := it.type, text := it.text, reasoning := it.reasoning
    summary := it.summary, signature := it.signature, data := it.data }

/-- Processing of one block nested in a streaming message item, following
the source's branch order. The nested streaming block declares no
`content` member, so the web-search-result payload chain reads
`results ?? output ?? text`. -/
def processMsgBlockS (jp : String → Option Json) (s : StreamState) (b : SBlock) :
    List StreamEvent × StreamState :=
  if (b.type = some "text" ∨ b.type = some "output_text") ∧ isTruthyStr b.text then
    openBlock s .text [.textDelta (b.text.getD "")]
  else
    match handleReasoningBlock s b.toRBlock with
    | some r => r
    | none =>
      if b.type = some "web_search_call" then
        let s1 := recordWebSearch s b.call_id none
        let callId := getWebSearchCallId b.call_id none
        let toolInput := buildWebSearchInput jp b.arguments b.query b.max_results
          b.search_context_size b.user_location
        let partialJson := webSearchPartialJson b.arguments toolInput
        openBlock s1 (.toolUse callId "web_search")
          (if partialJson ≠ "" then [.inputJsonDelta partialJson] else [])
      else if b.type = some "web_search_result" then
        let s1 := recordWebSearch s b.call_id none
        let callId := getWebSearchCallId b.call_id none
        let resultText := stringifyToolResult (b.results <|> b.output <|> b.text.map Json.str)
        openBlock s1 (.toolResult callId)
          (if resultText ≠ "" then [.textDelta resultText] else [])
      else ([], s)

/-- Nested-block loop of the streaming message-item branch. -/
def processMsgBlocksS (jp : String → Option Json) (s : StreamState) :
    List SBlock → List StreamEvent × StreamState
  | [] => ([], s)
  | b :: rest =>
      let r := processMsgBlockS jp s b
      let r2 := processMsgBlocksS jp r.2 rest
      (r.1 ++ r2.1, r2.2)

/-- Processing of one top-level streaming output item, following the
source's branch order. A top-level `web_search_result` item is not passed
to `recordWebSearch` at this site (only the earlier scan records it). -/
def processItemS (jp : String → Option Json) (s : StreamState) (it : SItem) :
    List StreamEvent × StreamState :=
  if it.type = some "message" ∧ it.content.isSome then
    processMsgBlocksS jp s (it.content.getD [])
  else if it.type = some "function_call" ∧ isTruthyStr it.call_id ∧ isTruthyStr it.name then
    openBlock s (.toolUse (it.call_id.getD "") (it.name.getD ""))
      (if isTruthyStr it.arguments then [.inputJsonDelta (it.arguments.getD "")] else [])
  else
    match handleReasoningBlock s it.toRBlock with
    | some r => r
    | none =>
      if it.type = some "web_search_call" then
        let s1 := recordWebSearch s it.call_id it.id
        let callId := getWebSearchCallId it.call_id it.id
        let toolInput := buildWebSearchInput jp it.arguments it.query it.max_results
          it.search_context_size it.user_location
        let partialJson := webSearchPartialJson it.arguments toolInput
        openBlock s1 (.toolUse callId "web_search")
          (if partialJson ≠ "" then [.inputJsonDelta partialJson] else [])
      else if it.type = some "web_search_result" then
        let callId := getWebSearchCallId it.call_id it.id
        let resultText := stringifyToolResult
          (it.results <|> it.output <|> it.text.map Json.str)
        openBlock s (.toolResult callId)
          (if resultText ≠ "" then [.textDelta resultText] else [])
      else ([], s)

/-- Top-level item loop of the rendering phase. -/
def processItemsS (jp : String → Option Json) (s : StreamState) :
    List SItem → List StreamEvent × StreamState
  | [] => ([], s)
  | it :: rest =>
      let r := processItemS jp s it
      let r2 := processItemsS jp r.2 rest
      (r.1 ++ r2.1, r2.2)

/-- The web-search scan over blocks nested in a message item (extraction
phase). -/
def scanNestedBlocks (s : StreamState) : List SBlock → StreamState
  | [] => s
  | b :: rest =>
      let s' :=
        if b.type = some "web_search_call" ∨ b.type = some "web_search_result" then
          recordWebSearch s b.call_id none
        else s
      scanNestedBlocks s' rest

/-- The extraction-phase updates contributed by one output item:
per-item `stop_reason`, a top-level web-search occurrence, then nested
ones. -/
def scanFrameItem (s : StreamState) (it : SItem) : StreamState :=
  let s1 :=
    match it.stop_reason with
    | some sr => { s with stopReason := mapFinishReason sr }
    | none => s
  let s2 :=
    if it.type = some "web_search_call" ∨ it.type = some "web_search_result" then
      recordWebSearch s1 it.call_id it.id
    else s1
  if it.type = some "message" ∧ it.content.isSome then
    scanNestedBlocks s2 (it.content.getD [])
  else s2

/-- The extraction scan over the frame's output items. -/
def scanFrameItems (s : StreamState) : List SItem → StreamState
  | [] => s
  | it :: rest => scanFrameItems (scanFrameItem s it) rest

/-- The state-update (extraction) phase of a frame: top-level
`stop_reason` (when the key is present, `null` included), the usage
snapshot, and the web-search scan over the output items. -/
def extractFrameState (s : StreamState) (j : StreamJson) : StreamState :=
  let s1 :=
    match j.stop_reason with
    | some sr => { s with stopReason := mapFinishReason sr }
    | none => s
  let s2 :=
    match j.usage with
    | some u => { s1 with usage := some u }
    | none => s1
  match j.output with
  | some items => scanFrameItems s2 items
  | none => s2

/-- The `message_start` emission: once, on the first frame carrying a
truthy id, with the usage snapshot known so far. -/
def messageStartStep (s : StreamState) (j : StreamJson) :
    List StreamEvent × StreamState :=
  if ¬s.sentMessageStart ∧ isTruthyStr j.id then
    ( [.message_start (j.id.getD "")
        (attachToolUseUsage (mapOpenAIUsageToClaude s.usage)
          (getWebSearchRequestCount s))]
    , { s with sentMessageStart := true, messageId := j.id.getD "" } )
  else ([], s)

/-- Processing of one parsed frame, in the source's order of precedence:
reasoning/redacted delta events with an open block short-circuit; then
`stop_reason`/`usage`/output-scan state updates; then the
`response.output_text.done` block-boundary marker; then `message_start`
on the first frame carrying a truthy id; then the rendering loop. -/
def processFrame (jp : String → Option Json) (s : StreamState) (j : StreamJson) :
    List StreamEvent × StreamState :=
  match maybeHandleReasoningEvent s j.type j.delta with
  | some evts => (evts, s)
  | none =>
    let s3 := extractFrameState s j
    if j.type = some "response.output_text.done" then
      (closePendingEvents s3, { s3 with pending := none })
    else
      let ms := messageStartStep s3 j
      let rendered :=
        match j.output with
        | some items => processItemsS jp ms.2 items
        | none => ([], ms.2)
      (ms.1 ++ rendered.1, rendered.2)

/-- The termination sequence of the two `[DONE]` sites: close the pending
block, emit `message_delta` with the tracked stop reason and the usage
snapshot enriched with the web-search counter, then `message_stop`. -/
def doneEvents (s : StreamState) : List StreamEvent :=
  closePendingEvents s
    ++ [ .message_delta s.stopReason
          (attachToolUseUsage (mapOpenAIUsageToClaude s.usage) (getWebSearchRequestCount s))
       , .message_stop ]

/-- The termination sequence of the clean-stream-end site: the usage
snapshot is mapped but NOT passed through `attachToolUseUsage` (the
web-search counter is absent on this path). -/
def cleanEndEvents (s : StreamState) : List StreamEvent :=
  closePendingEvents s
    ++ [ .message_delta s.stopReason (mapOpenAIUsageToClaude s.usage)
       , .message_stop ]

/-- The read loop over complete lines: the first `[DONE]` line terminates
processing (remaining lines are never read); other lines that are not
`data:` frames, or whose payload fails to parse, are skipped. Returns the
emitted events, the final state and whether a `[DONE]` line fired. -/
def runStreamLines (jp : String → Option Json) (s : StreamState) :
    List SseLine → List StreamEvent × StreamState × Bool
  | [] => ([], s, false)
  | .doneFrame :: _ => ([], s, true)
  | .notData :: rest => runStreamLines jp s rest
  | .malformed :: rest => runStreamLines jp s rest
  | .frame j :: rest =>
      let r := processFrame jp s j
      let r2 := runStreamLines jp r.2 rest
      (r.1 ++ r2.1, r2.2.1, r2.2.2)

/-- `createClaudeStream` from the source, at the line level: process the
complete lines, then terminate exactly once — via the `[DONE]`
termination sequence when a `[DONE]` line fired in the loop or sits in
the trailing buffer, via the clean-end sequence otherwise. -/
def createClaudeStream (jp : String → Option Json) (lines : List SseLine)
    (finalBufferIsDone : Bool) : List StreamEvent :=
  let r := runStreamLines jp {} lines
  r.1 ++ (if r.2.2 || finalBufferIsDone then doneEvents r.2.1 else cleanEndEvents r.2.1)

/-! ## Specification-side definitions and analysis helpers -/

/-- Spec side (amended C3): the effective call ids of all web-search
call/result items, top-level or nested, in discovery order. -/
def webSearchIdsOfBlocks : List MsgBlock → List String
  | [] => []
  | b :: rest =>
      (if b.type = "web_search_call" ∨ b.type = "web_search_result" then
        [getWebSearchCallId b.call_id none]
      else []) ++ webSearchIdsOfBlocks rest

/-- Spec side (amended C3): effective ids over top-level items. -/
def webSearchIdsOfItems : List OpenAIResponseItem → List String
  | [] => []
  | it :: rest =>
      (match it with
        | .web_search_call id call_id _ _ _ _ _ => [getWebSearchCallId call_id id]
        | .web_search_result id call_id _ _ _ _ => [getWebSearchCallId call_id id]
        | .message _ (some blocks) _ => webSearchIdsOfBlocks blocks
        | _ => []) ++ webSearchIdsOfItems rest

/-- Spec side (C3 as stated): the raw occurrence count of web-search
call/result items, top-level or nested. -/
def rawWebSearchOccurrences : List OpenAIResponseItem → Nat
  | [] => 0
  | it :: rest =>
      (match it with
        | .web_search_call _ _ _ _ _ _ _ => 1
        | .web_search_result _ _ _ _ _ _ => 1
        | .message _ (some blocks) _ =>
            (blocks.filter (fun b =>
              b.type = "web_search_call" ∨ b.type = "web_search_result")).length
        | _ => 0) + rawWebSearchOccurrences rest

/-- Spec side (C3 as stated): no web-search call/result item carries a
`call_id` or `id`. -/
def noWebSearchItemHasId : List OpenAIResponseItem → Bool
  | [] => true
  | it :: rest =>
      (match it with
        | .web_search_call id call_id _ _ _ _ _ => call_id = none && id = none
        | .web_search_result id call_id _ _ _ _ => call_id = none && id = none
        | .message _ (some blocks) _ =>
            blocks.all (fun b =>
              !(b.type = "web_search_call" ∨ b.type = "web_search_result")
                || b.call_id = none)
        | _ => true) && noWebSearchItemHasId rest

/-- Inserting a whole list with `addUnique`, left to right (the trace of
the web-search id `Set`). -/
def addUniqueAll (acc : List String) : List String → List String
  | [] => acc
  | x :: rest => addUniqueAll (addUnique acc x) rest

/-- Spec side (amended C4): the first *defined* of the three reasoning
text fields, defaulting to the empty string. -/
def specFirstDefined (text reasoningText summary : Option String) : String :=
  match text with
  | some t => t
  | none =>
      match reasoningText with
      | some r => r
      | none =>
          match summary with
          | some s => s
          | none => ""

/-- Spec side (C4 as stated): the first non-empty of the three reasoning
text fields, defaulting to the empty string. -/
def specFirstNonEmpty (text reasoningText summary : Option String) : String :=
  match ([text, reasoningText, summary].filterMap id).filter (fun s => s ≠ "") with
  | t :: _ => t
  | [] => ""

/-- The thinking text of a translated block, when it is a thinking
block. -/
def thinkingTextOf : Option ClaudeMessageContent → Option String
  | some (.thinking t _) => some t
  | _ => none

/-- Spec side (C7): the claim's override condition — the model name
matches a token-limit table entry and the reported output tokens meet or
exceed that entry's configured maximum output (no truthiness proviso). -/
def claimOverride (openai : OpenAIResponse) (model : String) : Bool :=
  match getDownstreamConfig model, openai.usage with
  | some cfg, some u =>
      match u.output_tokens with
      | some o => decide (cfg.maxOutput ≤ o)
      | none => false
  | _, _ => false

/-- Spec side (amended C8): the explicit reasoning-effort string of a
request, when present and non-empty. -/
def explicitEffortOf (req : ClaudeRequest) : Option String :=
  match req.output_config with
  | some oc =>
      match oc.effort with
      | some e => if e = "" then none else some e
      | none => none
  | none => none

/-- Whether a translated content block is a `tool_use` block. -/
def isToolUseBlock : ClaudeMessageContent → Bool
  | .tool_use _ _ _ => true
  | _ => false

/-- Whether a stream event opens a `tool_use` content block. -/
def startsToolUse : StreamEvent → Bool
  | .content_block_start _ (.toolUse _ _) => true
  | _ => false

/-- A plain-text Front-Protocol message (C9). -/
def plainMessage (role : ClaudeRole) (s : String) : ClaudeMessage :=
  ⟨role, .str s⟩

/-- The input item a non-empty plain-text message translates to (C9). -/
def plainInputItem : ClaudeRole → String → OpenAIInputItem
  | .user, s => .user (.str s)
  | .assistant, s => .assistant s

/-- The text payload of a Back-Protocol input item (C9). -/
def inputItemText : OpenAIInputItem → String
  | .system s => s
  | .user (.str s) => s
  | .user (.blocks ts) => String.join ts
  | .assistant s => s

/-- An `output_text` nested block carrying the given text (C9). -/
def outputTextBlockOf (t : String) : MsgBlock :=
  { type := "output_text", text := some t }

/-- The same-shaped Back-Protocol response echoing a translated request's
input items as `output_text` blocks of one message item (C9). -/
def responseEchoing (oreq : OpenAIRequest) : OpenAIResponse :=
  { id := "resp", model := oreq.model
    output := [.message "msg" (some ((oreq.input.map inputItemText).map outputTextBlockOf)) none] }

/-- The `content_block_start` indices of an event list, in emission
order. -/
def startIndices : List StreamEvent → List Nat
  | [] => []
  | .content_block_start i _ :: rest => i :: startIndices rest
  | _ :: rest => startIndices rest

/-- Check that a list of indices is consecutive starting at `n`,
returning the next expected index. -/
def consecFrom (n : Nat) : List Nat → Option Nat
  | [] => some n
  | i :: rest => if i = n then consecFrom (n + 1) rest else none

/-- Well-nestedness scan: starting from an optional open block, consume
the events; opening requires no block open, closing requires exactly the
open block's index; `none` signals a violation, otherwise the open block
after the events is returned. -/
def nestScan (o : Option Nat) : List StreamEvent → Option (Option Nat)
  | [] => some o
  | .content_block_start i _ :: rest =>
      (match o with
        | none => nestScan (some i) rest
        | some _ => none)
  | .content_block_stop i :: rest =>
      (match o with
        | some p => if i = p then nestScan none rest else none
        | none => none)
  | _ :: rest => nestScan o rest

/-- Whether an event belongs to the termination sequence. -/
def isTerminalEvent : StreamEvent → Bool
  | .message_delta _ _ => true
  | .message_stop => true
  | _ => false

/-- Whether an event neither opens nor closes a content block and is not
terminal (deltas and the opening event). -/
def isNeutralEvent : StreamEvent → Bool
  | .message_start _ _ => true
  | .content_block_delta _ _ => true
  | _ => false

/-- The step contract threaded through the engine's processing functions:
new `content_block_start` indices are consecutive from the incoming block
index up to the outgoing one, the well-nestedness scan carries the
incoming pending block to the outgoing pending block, and no terminal
event is emitted. -/
def StepOk (p : Option Nat) (i : Nat) (evts : List StreamEvent)
    (p' : Option Nat) (i' : Nat) : Prop :=
  consecFrom i (startIndices evts) = some i'
    ∧ nestScan p evts = some p'
    ∧ evts.filter isTerminalEvent = []

/-! Concrete inputs used by counterexamples and witnesses. -/

/-- C3 counterexample input: two web-search call items with no ids. -/
def c3Items : List OpenAIResponseItem :=
  [ .web_search_call none none none none none none none
  , .web_search_call none none none none none none none ]

/-- C4 counterexample input: a reasoning block whose `text` is defined
but empty, with a non-empty `reasoning` fallback and an empty
signature. -/
def c4Block : RBlock :=
  { type := some "reasoning", text := some "", reasoning := some "abc"
    signature := some "" }

/-- C2 counterexample input: one frame carrying usage and a web-search
call, then the stream ends cleanly without `[DONE]`. -/
def c2Frame : StreamJson :=
  { usage := some { output_tokens := some 7 }
    output := some [ { type := some "web_search_call" } ] }

/-- The single-frame line list of the C2 counterexample. -/
def c2Lines : List SseLine := [.frame c2Frame]

/-- C8 counterexample input: an explicit but empty effort string next to
a thinking budget. -/
def c8Req : ClaudeRequest :=
  { model := "m", messages := []
    output_config := some { effort := some "" }
    thinking := some { budget_tokens := some 20000 } }

/-! ## Claim theorems -/

/-- C6 counterexample: the empty string is a non-null Back-Protocol
finish reason, yet it maps to `null` instead of passing through
unchanged. -/
theorem c6_empty_reason_counterexample :
    mapFinishReason (some "") = none ∧ mapFinishReason (some "") ≠ some "" := by
  exact ⟨rfl, by decide⟩

/-- C6 (amended): the finish-reason mapping sends `stop`/`length`/
`tool_calls` to `end_turn`/`max_tokens`/`tool_use`, maps `null` and the
empty string to `null`, and passes any other non-empty string through
unchanged. -/
theorem c6_finish_reason_total_mapping :
    mapFinishReason none = none
    ∧ mapFinishReason (some "stop") = some "end_turn"
    ∧ mapFinishReason (some "length") = some "max_tokens"
    ∧ mapFinishReason (some "tool_calls") = some "tool_use"
    ∧ mapFinishReason (some "") = none
    ∧ ∀ s : String, s ≠ "" → s ≠ "stop" → s ≠ "length" → s ≠ "tool_calls" →
        mapFinishReason (some s) = some s := by
  refine ⟨rfl, by decide, by decide, by decide, rfl, ?_⟩
  intro s h1 h2 h3 h4
  simp [mapFinishReason, h1, h2, h3, h4]

/-- C6 witness: the passthrough clause applied at the concrete reason
`"custom_reason"`. -/
theorem c6_finish_reason_total_mapping_witness :
    ("custom_reason" : String) ≠ ""
    ∧ ("custom_reason" : String) ≠ "stop"
    ∧ ("custom_reason" : String) ≠ "length"
    ∧ ("custom_reason" : String) ≠ "tool_calls"
    ∧ mapFinishReason (some "custom_reason") = some "custom_reason" :=
  ⟨by decide, by decide, by decide, by decide,
    c6_finish_reason_total_mapping.2.2.2.2.2 "custom_reason"
      (by decide) (by decide) (by decide) (by decide)⟩

/-- C10: the translated Back-Protocol request is unchanged by any value
of `stop_sequences` — the Request Translator discards the field (and the
`OpenAIRequest` type it builds has no stop-sequence member). -/
theorem c10_stop_sequences_discarded :
    ∀ (req : ClaudeRequest) (stops : Option (List String)) (up : String),
      mapClaudeToOpenAI { req with stop_sequences := stops } up
        = mapClaudeToOpenAI req up := by
  intro req stops up
  rfl

/-- C4 counterexample: a reasoning block whose `text` field is defined
but empty and whose `reasoning` field is `"abc"` yields thinking text
`""`, not the first non-empty field `"abc"`; its empty signature is also
dropped rather than carried through. -/
theorem c4_counterexample :
    mapReasoningBlockToClaude c4Block = some (.thinking "" none)
    ∧ specFirstNonEmpty c4Block.text c4Block.reasoning c4Block.summary = "abc"
    ∧ thinkingTextOf (mapReasoningBlockToClaude c4Block)
        ≠ some (specFirstNonEmpty c4Block.text c4Block.reasoning c4Block.summary)
    ∧ c4Block.signature = some "" := by
  exact ⟨rfl, by decide, by decide, rfl⟩

/-- C4 (amended): for every reasoning / output-reasoning block the
thinking text is the first *defined* (non-nullish) of `text`,
`reasoning`, `summary` — the empty string counts as defined — and the
signature is carried through exactly when present and non-empty. -/
theorem c4_reasoning_text_first_defined :
    ∀ b : RBlock, b.type = some "reasoning" ∨ b.type = some "output_reasoning" →
      mapReasoningBlockToClaude b =
        some (.thinking (specFirstDefined b.text b.reasoning b.summary)
          (if isTruthyStr b.signature then b.signature else none)) := by
  intro b h
  have hts : (b.text <|> b.reasoning <|> b.summary).getD ""
      = specFirstDefined b.text b.reasoning b.summary := by
    cases b.text <;> cases b.reasoning <;> cases b.summary <;> rfl
  unfold mapReasoningBlockToClaude
  rw [if_pos h, hts]

/-- C4 witness: the amended rule applied to a concrete reasoning block
carrying only a `reasoning` payload. -/
theorem c4_reasoning_text_first_defined_witness :
    (({ type := some "reasoning", reasoning := some "trace" } : RBlock).type
        = some "reasoning"
      ∨ ({ type := some "reasoning", reasoning := some "trace" } : RBlock).type
        = some "output_reasoning")
    ∧ mapReasoningBlockToClaude { type := some "reasoning", reasoning := some "trace" }
        = some (.thinking "trace" none) :=
  ⟨Or.inl rfl, c4_reasoning_text_first_defined _ (Or.inl rfl)⟩

/-- C8 counterexample: an explicit but *empty* effort string is not used
verbatim — it is falsy, so the thinking budget's bucket wins (here
`"high"` from a 20000-token budget). -/
theorem c8_counterexample :
    (mapClaudeToOpenAI c8Req "up").reasoning = some { effort := some "high" }
    ∧ c8Req.output_config = some { effort := some "" }
    ∧ (some { effort := some "high" } : Option OpenAIReasoning)
        ≠ some { effort := some "" } := by
  refine ⟨by decide, rfl, by decide⟩

/-- C8 (amended): a *non-empty* explicit effort string is used verbatim;
otherwise a thinking budget (from `budget_tokens`, else `budget`) is
bucketed — ≥ 10000 high, ≥ 5000 medium, else low; with neither, the
reasoning field is omitted entirely. The boundary buckets are as the
claim states. -/
theorem c8_reasoning_effort_rule :
    ∀ (req : ClaudeRequest) (up : String),
      ((mapClaudeToOpenAI req up).reasoning =
        match explicitEffortOf req, thinkingBudgetOf req with
        | some e, _ => some { effort := some e }
        | none, some b => some { effort := some (mapBudgetTokensToEffort b) }
        | none, none => none)
      ∧ mapBudgetTokensToEffort 10000 = "high"
      ∧ mapBudgetTokensToEffort 5000 = "medium"
      ∧ mapBudgetTokensToEffort 1 = "low" := by
  intro req up
  refine ⟨?_, by decide, by decide, by decide⟩
  simp only [mapClaudeToOpenAI, explicitEffortOf]
  rcases hoc : req.output_config with _ | oc
  · simp only [isTruthyStr]
    cases hb : thinkingBudgetOf req <;> simp
  · rcases hoe : oc.effort with _ | e
    · simp only [hoe, isTruthyStr]
      cases hb : thinkingBudgetOf req <;> simp [hb]
    · by_cases he : e = ""
      · subst he
        simp only [hoe, isTruthyStr]
        cases hb : thinkingBudgetOf req <;> simp [hb]
      · simp [hoe, isTruthyStr, he]

/-- Every entry of the token-limit table has a positive maximum output,
so a matched model's configured `maxOutput` is never zero. -/
theorem getDownstreamConfig_maxOutput_pos :
    ∀ (model : String) (cfg : ModelConfig),
      getDownstreamConfig model = some cfg → 0 < cfg.maxOutput := by
  intro model cfg h
  unfold getDownstreamConfig at h
  cases hf : GPT5_MODEL_CONFIG.find? (fun p => strIncludes model p.1) with
  | none => rw [hf] at h; exact absurd h (by simp)
  | some p =>
      rw [hf] at h
      have hmem : p ∈ GPT5_MODEL_CONFIG := List.mem_of_find?_eq_some hf
      have hcfg : cfg = p.2 := by simpa using h.symm
      subst hcfg
      simp only [GPT5_MODEL_CONFIG, List.mem_cons, List.mem_singleton] at hmem
      rcases hmem with h1 | h1 | h1 | h1 | h1 | h1 <;> first
        | (subst h1; decide)
        | exact absurd h1 (by simp)

/-- The source's override test (which also requires a truthy token count)
coincides with the claim's override condition, because every table entry
has a positive `maxOutput`. -/
theorem maxTokensOverride_eq_claimOverride :
    ∀ (openai : OpenAIResponse) (model : String),
      maxTokensOverride openai model = claimOverride openai model := by
  intro openai model
  unfold maxTokensOverride claimOverride
  cases hc : getDownstreamConfig model with
  | none => rfl
  | some cfg =>
      cases hu : openai.usage with
      | none => rfl
      | some u =>
          dsimp only
          cases ht : u.output_tokens with
          | none => rfl
          | some o =>
              by_cases ho : o = 0
              · subst ho
                have hpos := getDownstreamConfig_maxOutput_pos model cfg hc
                simp [Nat.not_le.mpr hpos]
              · simp [ho]

/-- C7: the non-streaming stop reason is forced to `max_tokens` exactly
when the model matches a token-limit table entry and the reported output
tokens meet or exceed that entry's configured maximum output; otherwise
it is the table-mapped backend reason. -/
theorem c7_stop_reason_override :
    ∀ (jp : String → Option Json) (openai : OpenAIResponse) (model : String),
      (mapOpenAIToClaude jp openai model).stop_reason =
        if claimOverride openai model then some "max_tokens"
        else mapFinishReason (jsOrNull (messageItemStopReason openai.output)) := by
  intro jp openai model
  simp only [mapOpenAIToClaude, maxTokensOverride_eq_claimOverride]

/-- C5: a function-call content block missing its call id or its name
never produces a `tool_use` block — for blocks nested in the
non-streaming message item, for top-level streaming items, and for
streaming nested blocks (where function calls are never rendered at
all). The non-streaming *top-level* `function_call` item declares both
fields as required, so the missing case cannot arise there. -/
theorem c5_missing_function_call_never_tool_use :
    ∀ (jp : String → Option Json),
      (∀ b : MsgBlock, b.type = "function_call" →
        (b.call_id = none ∨ b.name = none) →
        ((mapMessageBlock jp b).all (fun c => !isToolUseBlock c)) = true)
      ∧ (∀ (s : StreamState) (it : SItem), it.type = some "function_call" →
          (it.call_id = none ∨ it.name = none) →
          ((processItemS jp s it).1.all (fun e => !startsToolUse e)) = true)
      ∧ (∀ (s : StreamState) (b : SBlock), b.type = some "function_call" →
          ((processMsgBlockS jp s b).1.all (fun e => !startsToolUse e)) = true) := by
  intro jp
  refine ⟨?_, ?_, ?_⟩
  · intro b ht hmi
    rcases hmi with h | h <;>
      simp [mapMessageBlock, ht, h, isTruthyStr]
  · intro s it ht hmi
    rcases hmi with h | h <;>
      simp [processItemS, handleReasoningBlock, SItem.toRBlock, ht, h, isTruthyStr]
  · intro s b ht
    simp [processMsgBlockS, handleReasoningBlock, SBlock.toRBlock, ht, isTruthyStr]

/-- C5 witness: the three clauses applied at concrete function-call
shapes that lack a call id. -/
theorem c5_missing_function_call_witness :
    (({ type := "function_call", name := some "f" } : MsgBlock).call_id = none
      ∨ ({ type := "function_call", name := some "f" } : MsgBlock).name = none)
    ∧ ((mapMessageBlock (fun _ => none)
        { type := "function_call", name := some "f" }).all
          (fun c => !isToolUseBlock c)) = true
    ∧ (({ type := some "function_call", name := some "f" } : SItem).call_id = none
      ∨ ({ type := some "function_call", name := some "f" } : SItem).name = none)
    ∧ ((processItemS (fun _ => none) {}
        { type := some "function_call", name := some "f" }).1.all
          (fun e => !startsToolUse e)) = true
    ∧ ((processMsgBlockS (fun _ => none) {}
        { type := some "function_call" }).1.all
          (fun e => !startsToolUse e)) = true :=
  ⟨ Or.inl rfl
  , (c5_missing_function_call_never_tool_use (fun _ => none)).1 _ rfl (Or.inl rfl)
  , Or.inl rfl
  , (c5_missing_function_call_never_tool_use (fun _ => none)).2.1 {} _ rfl (Or.inl rfl)
  , (c5_missing_function_call_never_tool_use (fun _ => none)).2.2 {} _ rfl ⟩

/-- `jsOrString` never returns the empty string when its default is
non-empty. -/
theorem jsOrString_ne_empty :
    ∀ (a : Option String) (b : String), b ≠ "" → jsOrString a b ≠ "" := by
  intro a b hb
  cases a with
  | none => exact hb
  | some s =>
      by_cases hs : s = "" <;> simp [jsOrString, hs, hb]

/-- Effective web-search call ids are never empty: the chain bottoms out
at the `"web_search"` sentinel. -/
theorem getWebSearchCallId_ne_empty :
    ∀ (call_id id : Option String), getWebSearchCallId call_id id ≠ "" := by
  intro call_id id
  exact jsOrString_ne_empty _ _ (jsOrString_ne_empty _ _ (by decide))

/-- With a non-empty call id, `recordCallId` inserts into the id set and
never touches the fallback counter. -/
theorem recordCallId_ne_empty :
    ∀ (acc : List String × Nat) (x : String), x ≠ "" →
      recordCallId acc x = (addUnique acc.1 x, acc.2) := by
  intro acc x hx
  simp [recordCallId, hx]

/-- `addUniqueAll` distributes over append. -/
theorem addUniqueAll_append :
    ∀ (xs ys : List String) (acc : List String),
      addUniqueAll acc (xs ++ ys) = addUniqueAll (addUniqueAll acc xs) ys := by
  intro xs
  induction xs with
  | nil => intro ys acc; rfl
  | cons x rest ih => intro ys acc; simp [addUniqueAll, ih]

/-- The nested scan of `countWebSearchRequests` inserts exactly the
effective ids of the nested web-search blocks and never increments the
fallback counter. -/
theorem scanBlocksForWebSearch_eq :
    ∀ (blocks : List MsgBlock) (acc : List String × Nat),
      scanBlocksForWebSearch acc blocks
        = (addUniqueAll acc.1 (webSearchIdsOfBlocks blocks), acc.2) := by
  intro blocks
  induction blocks with
  | nil => intro acc; rfl
  | cons b rest ih =>
      intro acc
      by_cases hb : b.type = "web_search_call" ∨ b.type = "web_search_result"
      · simp only [scanBlocksForWebSearch, webSearchIdsOfBlocks, if_pos hb,
          recordCallId_ne_empty acc _ (getWebSearchCallId_ne_empty _ _), ih,
          addUniqueAll_append]
        rfl
      · simp only [scanBlocksForWebSearch, webSearchIdsOfBlocks, if_neg hb, ih]
        rfl

/-- The item scan of `countWebSearchRequests` inserts exactly the
effective ids of all web-search items (top-level and nested) and never
increments the fallback counter. -/
theorem scanItemsForWebSearch_eq :
    ∀ (items : List OpenAIResponseItem) (acc : List String × Nat),
      scanItemsForWebSearch acc items
        = (addUniqueAll acc.1 (webSearchIdsOfItems items), acc.2) := by
  intro items
  induction items with
  | nil => intro acc; rfl
  | cons it rest ih =>
      intro acc
      cases it with
      | web_search_call id call_id a q mr scs ul =>
          simp only [scanItemsForWebSearch, webSearchIdsOfItems,
            recordCallId_ne_empty acc _ (getWebSearchCallId_ne_empty _ _), ih,
            addUniqueAll_append]
          rfl
      | web_search_result id call_id c r o t =>
          simp only [scanItemsForWebSearch, webSearchIdsOfItems,
            recordCallId_ne_empty acc _ (getWebSearchCallId_ne_empty _ _), ih,
            addUniqueAll_append]
          rfl
      | message id content sr =>
          cases content with
          | none => simp only [scanItemsForWebSearch, webSearchIdsOfItems, ih]; rfl
          | some blocks =>
              simp only [scanItemsForWebSearch, webSearchIdsOfItems,
                scanBlocksForWebSearch_eq, ih, addUniqueAll_append]
      | function_call id call_id name args =>
          simp only [scanItemsForWebSearch, webSearchIdsOfItems, ih]; rfl
      | reasoning v id t r s sg =>
          simp only [scanItemsForWebSearch, webSearchIdsOfItems, ih]; rfl
      | redacted_reasoning id d sg =>
          simp only [scanItemsForWebSearch, webSearchIdsOfItems, ih]; rfl

/-- `addUnique` preserves freedom from duplicates. -/
theorem addUnique_nodup :
    ∀ (acc : List String) (x : String), acc.Nodup → (addUnique acc x).Nodup := by
  intro acc x h
  by_cases hx : x ∈ acc
  · simpa [addUnique, hx] using h
  · simp [addUnique, hx, List.nodup_append, h, List.disjoint_singleton]

/-- The finset of `addUnique` is the insertion. -/
theorem addUnique_toFinset :
    ∀ (acc : List String) (x : String),
      (addUnique acc x).toFinset = insert x acc.toFinset := by
  intro acc x
  by_cases hx : x ∈ acc
  · simp [addUnique, hx, Finset.insert_eq_self.mpr (List.mem_toFinset.mpr hx)]
  · simp [addUnique, hx, List.toFinset_append, Finset.insert_eq, Finset.union_comm]

/-- `addUniqueAll` preserves freedom from duplicates. -/
theorem addUniqueAll_nodup :
    ∀ (xs acc : List String), acc.Nodup → (addUniqueAll acc xs).Nodup := by
  intro xs
  induction xs with
  | nil => intro acc h; exact h
  | cons x rest ih => intro acc h; exact ih _ (addUnique_nodup _ _ h)

/-- The finset accumulated by `addUniqueAll`. -/
theorem addUniqueAll_toFinset :
    ∀ (xs acc : List String),
      (addUniqueAll acc xs).toFinset = acc.toFinset ∪ xs.toFinset := by
  intro xs
  induction xs with
  | nil => intro acc; simp [addUniqueAll]
  | cons x rest ih =>
      intro acc
      rw [addUniqueAll, ih, addUnique_toFinset]
      ext a
      simp [or_assoc, or_left_comm]

/-- The id set built by `addUniqueAll` from scratch has exactly one
element per distinct inserted id. -/
theorem addUniqueAll_length :
    ∀ xs : List String, (addUniqueAll [] xs).length = xs.dedup.length := by
  intro xs
  have hnd : (addUniqueAll [] xs).Nodup := addUniqueAll_nodup xs [] (by simp)
  have hfs : (addUniqueAll [] xs).toFinset = xs.toFinset := by
    rw [addUniqueAll_toFinset]; simp
  calc (addUniqueAll [] xs).length
      = (addUniqueAll [] xs).toFinset.card := (List.toFinset_card_of_nodup hnd).symm
    _ = xs.toFinset.card := by rw [hfs]
    _ = xs.dedup.length := by rw [List.card_toFinset]

/-- C3 (amended): the web-search counter equals the number of distinct
*effective* call ids — `call_id`, else `id`, else the shared sentinel
`"web_search"` — over all web-search call/result items found; items
without any id all share the sentinel and therefore collectively count
once, and the raw-occurrence fallback never fires because the effective
id is never empty. -/
theorem c3_web_search_count_distinct_effective_ids :
    ∀ items : List OpenAIResponseItem,
      countWebSearchRequests (some items)
        = (webSearchIdsOfItems items).dedup.length := by
  intro items
  have h := scanItemsForWebSearch_eq items ([], 0)
  simp only [countWebSearchRequests, h, addUniqueAll_length]
  rcases hn : (webSearchIdsOfItems items).dedup.length with _ | n
  · simp [hn]
  · simp [hn]

/-- C3 counterexample: two web-search call items carrying no ids at all —
the claim's fallback clause demands the raw occurrence count 2, but the
code assigns both the sentinel id and counts 1. -/
theorem c3_counterexample :
    noWebSearchItemHasId c3Items = true
    ∧ rawWebSearchOccurrences c3Items = 2
    ∧ countWebSearchRequests (some c3Items) = 1
    ∧ (1 : Nat) ≠ 2 := by
  exact ⟨rfl, rfl, by decide, by decide⟩

/-- Each non-empty plain-text message becomes exactly one input item of
the same role carrying the same text. -/
theorem buildInputItems_plain :
    ∀ msgs : List (ClaudeRole × String), (∀ p ∈ msgs, p.2 ≠ "") →
      buildInputItems (msgs.map (fun p => plainMessage p.1 p.2))
        = msgs.map (fun p => plainInputItem p.1 p.2) := by
  intro msgs
  induction msgs with
  | nil => intro h; rfl
  | cons p rest ih =>
      intro h
      have hp : p.2 ≠ "" := h p (by simp)
      have hrest := ih (fun q hq => h q (by simp [hq]))
      rw [List.map_cons, List.map_cons]
      generalize hT : List.map (fun p => plainMessage p.1 p.2) rest = T at hrest
      cases hr : p.1 with
      | user =>
          simp [buildInputItems, plainMessage, plainInputItem, textFromContent,
            extractToolResults, hp, hrest, String.intercalate, String.intercalate.go]
      | assistant =>
          simp [buildInputItems, plainMessage, plainInputItem, hp, hrest]

/-- Echoed `output_text` blocks with non-empty texts map back to exactly
the corresponding text blocks. -/
theorem mapMessageBlocks_outputText :
    ∀ (jp : String → Option Json) (texts : List String), (∀ t ∈ texts, t ≠ "") →
      mapMessageBlocks jp (texts.map outputTextBlockOf)
        = texts.map ClaudeMessageContent.text := by
  intro jp texts
  induction texts with
  | nil => intro h; rfl
  | cons t rest ih =>
      intro h
      have ht : t ≠ "" := h t (by simp)
      have hrest := ih (fun q hq => h q (by simp [hq]))
      simp [mapMessageBlocks, mapMessageBlock, outputTextBlockOf, isTruthyStr, ht, hrest]

/-- The text payload of the item built from a plain-text message. -/
theorem inputItemText_plainInputItem :
    ∀ (r : ClaudeRole) (s : String), inputItemText (plainInputItem r s) = s := by
  intro r s
  cases r <;> rfl

/-- C9: translating a request of plain-text messages to Back-Protocol
form and mapping a same-shaped Back-Protocol response (echoing those
input items as `output_text` blocks of one message item) back to
Front-Protocol form reproduces exactly the original message texts, in
order. -/
theorem c9_plain_text_round_trip :
    ∀ (jp : String → Option Json) (model up down : String)
      (msgs : List (ClaudeRole × String)),
      (∀ p ∈ msgs, p.2 ≠ "") →
      (mapOpenAIToClaude jp
        (responseEchoing (mapClaudeToOpenAI
          { model := model, messages := msgs.map (fun p => plainMessage p.1 p.2) } up))
        down).content
      = msgs.map (fun p => ClaudeMessageContent.text p.2) := by
  intro jp model up down msgs h
  have hinput : (mapClaudeToOpenAI
      { model := model, messages := msgs.map (fun p => plainMessage p.1 p.2) } up).input
      = msgs.map (fun p => plainInputItem p.1 p.2) := by
    simp [mapClaudeToOpenAI, systemItems, buildInputItems_plain msgs h]
  have htexts : ((msgs.map (fun p => plainInputItem p.1 p.2)).map inputItemText)
      = msgs.map (fun p => p.2) := by
    simp [List.map_map, Function.comp_def, inputItemText_plainInputItem]
  have hne : ∀ t ∈ msgs.map (fun p => p.2), t ≠ "" := by
    intro t ht
    rcases List.mem_map.mp ht with ⟨p, hp, rfl⟩
    exact h p hp
  simp only [mapOpenAIToClaude, responseEchoing, hinput, htexts]
  have hmb := mapMessageBlocks_outputText jp (msgs.map (fun p => p.2)) hne
  simp only [List.map_map, Function.comp_def] at hmb
  simp [messageItemBlocks, findMessageItem, mapTopItems, mapTopItem,
    Function.comp_def, hmb]

/-- C9 witness: the round trip at a concrete two-message conversation. -/
theorem c9_plain_text_round_trip_witness :
    (∀ p ∈ [(ClaudeRole.user, "Hello"), (ClaudeRole.assistant, "Hi")], p.2 ≠ "")
    ∧ (mapOpenAIToClaude (fun _ => none)
        (responseEchoing (mapClaudeToOpenAI
          { model := "m"
            messages := [(ClaudeRole.user, "Hello"), (ClaudeRole.assistant, "Hi")].map
              (fun p => plainMessage p.1 p.2) } "up"))
        "down").content
      = [ClaudeMessageContent.text "Hello", ClaudeMessageContent.text "Hi"] :=
  ⟨by decide,
    c9_plain_text_round_trip (fun _ => none) "m" "up" "down"
      [(ClaudeRole.user, "Hello"), (ClaudeRole.assistant, "Hi")] (by decide)⟩

/-- `startIndices` distributes over append. -/
theorem startIndices_append :
    ∀ a b : List StreamEvent, startIndices (a ++ b) = startIndices a ++ startIndices b := by
  intro a b
  induction a with
  | nil => rfl
  | cons e rest ih => cases e <;> simp [startIndices, ih]

/-- `consecFrom` consumes appends sequentially. -/
theorem consecFrom_append :
    ∀ (a b : List Nat) (n m : Nat), consecFrom n a = some m →
      consecFrom n (a ++ b) = consecFrom m b := by
  intro a
  induction a with
  | nil =>
      intro b n m h
      simp only [consecFrom] at h
      cases h
      rfl
  | cons i rest ih =>
      intro b n m h
      by_cases hi : i = n
      · subst hi
        simp only [consecFrom, if_pos rfl] at h
        simpa [consecFrom] using ih b _ m h
      · simp [consecFrom, hi] at h

/-- `nestScan` consumes appends sequentially. -/
theorem nestScan_append :
    ∀ (a b : List StreamEvent) (o o' : Option Nat), nestScan o a = some o' →
      nestScan o (a ++ b) = nestScan o' b := by
  intro a
  induction a with
  | nil =>
      intro b o o' h
      simp only [nestScan] at h
      cases h
      rfl
  | cons e rest ih =>
      intro b o o' h
      cases e with
      | content_block_start i kind =>
          cases o with
          | none => exact ih b _ _ h
          | some p => simp [nestScan] at h
      | content_block_stop i =>
          cases o with
          | none => simp [nestScan] at h
          | some p =>
              by_cases hip : i = p
              · subst hip
                simp only [nestScan, if_pos rfl] at h
                simpa [nestScan] using ih b _ _ h
              · simp [nestScan, hip] at h
      | message_start id u => exact ih b _ _ h
      | content_block_delta i d => exact ih b _ _ h
      | message_delta r u => exact ih b _ _ h
      | message_stop => exact ih b _ _ h

/-- The empty step. -/
theorem stepOk_nil : ∀ (p : Option Nat) (i : Nat), StepOk p i [] p i := by
  intro p i
  exact ⟨rfl, rfl, rfl⟩

/-- Steps compose over appended event lists. -/
theorem stepOk_trans :
    ∀ {p i e1 p' i' e2 p'' i''}, StepOk p i e1 p' i' → StepOk p' i' e2 p'' i'' →
      StepOk p i (e1 ++ e2) p'' i'' := by
  intro p i e1 p' i' e2 p'' i'' h g
  obtain ⟨h1, h2, h3⟩ := h
  obtain ⟨g1, g2, g3⟩ := g
  refine ⟨?_, ?_, ?_⟩
  · rw [startIndices_append, consecFrom_append _ _ _ _ h1]
    exact g1
  · rw [nestScan_append _ _ _ _ h2]
    exact g2
  · rw [List.filter_append, h3, g3]
    rfl

/-- Event lists of neutral events (deltas and the opening event) leave
the step state unchanged. -/
theorem stepOk_neutral :
    ∀ (evts : List StreamEvent) (p : Option Nat) (i : Nat),
      (∀ e ∈ evts, isNeutralEvent e = true) → StepOk p i evts p i := by
  intro evts
  induction evts with
  | nil => intro p i _; exact stepOk_nil p i
  | cons e rest ih =>
      intro p i h
      have he := h e (by simp)
      have hrest := ih p i (fun x hx => h x (by simp [hx]))
      obtain ⟨h1, h2, h3⟩ := hrest
      cases e with
      | message_start id u => exact ⟨h1, h2, by simpa [isTerminalEvent] using h3⟩
      | content_block_delta j d => exact ⟨h1, h2, by simpa [isTerminalEvent] using h3⟩
      | content_block_start j k => simp [isNeutralEvent] at he
      | content_block_stop j => simp [isNeutralEvent] at he
      | message_delta r u => simp [isNeutralEvent] at he
      | message_stop => simp [isNeutralEvent] at he

/-- Closing the pending block carries the scan to the no-open state. -/
theorem stepOk_closePending :
    ∀ s : StreamState,
      StepOk s.pending s.contentBlockIndex (closePendingEvents s) none s.contentBlockIndex := by
  intro s
  unfold StepOk closePendingEvents
  cases hp : s.pending with
  | none => simp [consecFrom, nestScan, startIndices]
  | some p => simp [consecFrom, nestScan, startIndices, isTerminalEvent]

/-- Every block-opening site satisfies the step contract: it closes the
pending block, opens exactly the block at the current index and leaves it
pending. -/
theorem stepOk_openBlock :
    ∀ (s : StreamState) (kind : ContentBlockKind) (deltas : List DeltaKind),
      StepOk s.pending s.contentBlockIndex (openBlock s kind deltas).1
        (some s.contentBlockIndex) (s.contentBlockIndex + 1) := by
  intro s kind deltas
  have hstart : StepOk none s.contentBlockIndex
      [.content_block_start s.contentBlockIndex kind]
      (some s.contentBlockIndex) (s.contentBlockIndex + 1) := by
    refine ⟨?_, rfl, rfl⟩
    simp [startIndices, consecFrom]
  have hdeltas : StepOk (some s.contentBlockIndex) (s.contentBlockIndex + 1)
      (deltas.map (.content_block_delta s.contentBlockIndex))
      (some s.contentBlockIndex) (s.contentBlockIndex + 1) := by
    refine stepOk_neutral _ _ _ ?_
    intro e he
    rcases List.mem_map.mp he with ⟨d, _, rfl⟩
    rfl
  exact stepOk_trans (stepOk_trans (stepOk_closePending s) hstart) hdeltas

/-- `recordWebSearch` never touches the pending block. -/
theorem recordWebSearch_pending :
    ∀ (s : StreamState) (c i : Option String), (recordWebSearch s c i).pending = s.pending := by
  intro s c i
  unfold recordWebSearch
  dsimp only
  split <;> rfl

/-- `recordWebSearch` never touches the block index. -/
theorem recordWebSearch_contentBlockIndex :
    ∀ (s : StreamState) (c i : Option String),
      (recordWebSearch s c i).contentBlockIndex = s.contentBlockIndex := by
  intro s c i
  unfold recordWebSearch
  dsimp only
  split <;> rfl

attribute [simp] recordWebSearch_pending recordWebSearch_contentBlockIndex

/-- The state after `openBlock` records the just-opened block. -/
@[simp] theorem openBlock_snd_pending :
    ∀ (s : StreamState) (k : ContentBlockKind) (d : List DeltaKind),
      (openBlock s k d).2.pending = some s.contentBlockIndex := by
  intro s k d; rfl

/-- The state after `openBlock` advances the index. -/
@[simp] theorem openBlock_snd_contentBlockIndex :
    ∀ (s : StreamState) (k : ContentBlockKind) (d : List DeltaKind),
      (openBlock s k d).2.contentBlockIndex = s.contentBlockIndex + 1 := by
  intro s k d; rfl

/-- A handled reasoning block satisfies the step contract (both helpers
are `openBlock` instances). -/
theorem stepOk_handleReasoningBlock :
    ∀ (s : StreamState) (b : RBlock) (r : List StreamEvent × StreamState),
      handleReasoningBlock s b = some r →
      StepOk s.pending s.contentBlockIndex r.1 r.2.pending r.2.contentBlockIndex := by
  intro s b r h
  unfold handleReasoningBlock at h
  split at h
  · injection h with h2
    subst h2
    simpa using stepOk_openBlock s _ _
  · split at h
    · injection h with h2
      subst h2
      simpa using stepOk_openBlock s _ _
    · simp at h

/-- A handled thinking delta emits only neutral events. -/
theorem handleThinkingDelta_neutral :
    ∀ (s : StreamState) (d : DeltaPayload) (evts : List StreamEvent),
      handleThinkingDelta s d = some evts → ∀ e ∈ evts, isNeutralEvent e = true := by
  intro s d evts h
  unfold handleThinkingDelta at h
  split at h
  · simp at h
  · injection h with h2
    subst h2
    intro e he
    simp only [List.mem_append] at he
    rcases he with (he | he) | he <;>
      (split at he <;> simp_all [isNeutralEvent])

/-- A handled reasoning event emits only neutral events. -/
theorem maybeHandleReasoningEvent_neutral :
    ∀ (s : StreamState) (ty : Option String) (d : Option DeltaPayload)
      (evts : List StreamEvent),
      maybeHandleReasoningEvent s ty d = some evts →
      ∀ e ∈ evts, isNeutralEvent e = true := by
  intro s ty d evts h
  unfold maybeHandleReasoningEvent at h
  split at h
  · simp at h
  · split at h
    · split at h
      · exact handleThinkingDelta_neutral s _ evts h
      · simp at h
    · simp at h

/-- Each nested streaming block satisfies the step contract. -/
theorem stepOk_processMsgBlockS :
    ∀ (jp : String → Option Json) (s : StreamState) (b : SBlock),
      StepOk s.pending s.contentBlockIndex (processMsgBlockS jp s b).1
        (processMsgBlockS jp s b).2.pending
        (processMsgBlockS jp s b).2.contentBlockIndex := by
  intro jp s b
  unfold processMsgBlockS
  split
  · simpa using stepOk_openBlock s _ _
  · split
    · next r heq => exact stepOk_handleReasoningBlock s _ r heq
    · split
      · simpa using stepOk_openBlock (recordWebSearch s b.call_id none) _ _
      · split
        · simpa using stepOk_openBlock (recordWebSearch s b.call_id none) _ _
        · exact stepOk_nil _ _

/-- The nested-block loop satisfies the step contract. -/
theorem stepOk_processMsgBlocksS :
    ∀ (bs : List SBlock) (jp : String → Option Json) (s : StreamState),
      StepOk s.pending s.contentBlockIndex (processMsgBlocksS jp s bs).1
        (processMsgBlocksS jp s bs).2.pending
        (processMsgBlocksS jp s bs).2.contentBlockIndex := by
  intro bs
  induction bs with
  | nil => intro jp s; exact stepOk_nil _ _
  | cons b rest ih =>
      intro jp s
      exact stepOk_trans (stepOk_processMsgBlockS jp s b)
        (ih jp (processMsgBlockS jp s b).2)

/-- Each top-level streaming item satisfies the step contract. -/
theorem stepOk_processItemS :
    ∀ (jp : String → Option Json) (s : StreamState) (it : SItem),
      StepOk s.pending s.contentBlockIndex (processItemS jp s it).1
        (processItemS jp s it).2.pending
        (processItemS jp s it).2.contentBlockIndex := by
  intro jp s it
  unfold processItemS
  split
  · exact stepOk_processMsgBlocksS _ jp s
  · split
    · simpa using stepOk_openBlock s _ _
    · split
      · next r heq => exact stepOk_handleReasoningBlock s _ r heq
      · split
        · simpa using stepOk_openBlock (recordWebSearch s it.call_id it.id) _ _
        · split
          · simpa using stepOk_openBlock s _ _
          · exact stepOk_nil _ _

/-- The top-level item loop satisfies the step contract. -/
theorem stepOk_processItemsS :
    ∀ (items : List SItem) (jp : String → Option Json) (s : StreamState),
      StepOk s.pending s.contentBlockIndex (processItemsS jp s items).1
        (processItemsS jp s items).2.pending
        (processItemsS jp s items).2.contentBlockIndex := by
  intro items
  induction items with
  | nil => intro jp s; exact stepOk_nil _ _
  | cons it rest ih =>
      intro jp s
      exact stepOk_trans (stepOk_processItemS jp s it)
        (ih jp (processItemS jp s it).2)

/-- The nested web-search scan never touches the pending block or the
index. -/
theorem scanNestedBlocks_preserves :
    ∀ (bs : List SBlock) (s : StreamState),
      (scanNestedBlocks s bs).pending = s.pending
        ∧ (scanNestedBlocks s bs).contentBlockIndex = s.contentBlockIndex := by
  intro bs
  induction bs with
  | nil => intro s; exact ⟨rfl, rfl⟩
  | cons b rest ih =>
      intro s
      unfold scanNestedBlocks
      dsimp only
      split
      · obtain ⟨h1, h2⟩ := ih (recordWebSearch s b.call_id none)
        simp [h1, h2]
      · exact ih s

/-- Component form of `scanNestedBlocks_preserves` for the pending
block. -/
theorem scanNestedBlocks_pending :
    ∀ (bs : List SBlock) (s : StreamState),
      (scanNestedBlocks s bs).pending = s.pending :=
  fun bs s => (scanNestedBlocks_preserves bs s).1

/-- Component form of `scanNestedBlocks_preserves` for the index. -/
theorem scanNestedBlocks_contentBlockIndex :
    ∀ (bs : List SBlock) (s : StreamState),
      (scanNestedBlocks s bs).contentBlockIndex = s.contentBlockIndex :=
  fun bs s => (scanNestedBlocks_preserves bs s).2

/-- One extraction step never touches the pending block or the index. -/
theorem scanFrameItem_preserves :
    ∀ (s : StreamState) (it : SItem),
      (scanFrameItem s it).pending = s.pending
        ∧ (scanFrameItem s it).contentBlockIndex = s.contentBlockIndex := by
  intro s it
  unfold scanFrameItem
  dsimp only
  split <;> split <;> split <;> constructor <;>
    (first
      | rfl
      | simp_all [scanNestedBlocks_pending, scanNestedBlocks_contentBlockIndex])

/-- The extraction scan never touches the pending block or the index. -/
theorem scanFrameItems_preserves :
    ∀ (items : List SItem) (s : StreamState),
      (scanFrameItems s items).pending = s.pending
        ∧ (scanFrameItems s items).contentBlockIndex = s.contentBlockIndex := by
  intro items
  induction items with
  | nil => intro s; exact ⟨rfl, rfl⟩
  | cons it rest ih =>
      intro s
      unfold scanFrameItems
      obtain ⟨h1, h2⟩ := ih (scanFrameItem s it)
      obtain ⟨g1, g2⟩ := scanFrameItem_preserves s it
      exact ⟨h1.trans g1, h2.trans g2⟩

/-- Component form of `scanFrameItems_preserves` for the pending block. -/
theorem scanFrameItems_pending :
    ∀ (items : List SItem) (s : StreamState),
      (scanFrameItems s items).pending = s.pending :=
  fun items s => (scanFrameItems_preserves items s).1

/-- Component form of `scanFrameItems_preserves` for the index. -/
theorem scanFrameItems_contentBlockIndex :
    ∀ (items : List SItem) (s : StreamState),
      (scanFrameItems s items).contentBlockIndex = s.contentBlockIndex :=
  fun items s => (scanFrameItems_preserves items s).2

/-- The extraction phase never touches the pending block or the index. -/
theorem extractFrameState_preserves :
    ∀ (s : StreamState) (j : StreamJson),
      (extractFrameState s j).pending = s.pending
        ∧ (extractFrameState s j).contentBlockIndex = s.contentBlockIndex := by
  intro s j
  unfold extractFrameState
  dsimp only
  split <;> split <;> split <;> constructor <;>
    (first
      | rfl
      | simp_all [scanFrameItems_pending, scanFrameItems_contentBlockIndex])

/-- The `message_start` step is neutral for the block bookkeeping. -/
theorem stepOk_messageStartStep :
    ∀ (s : StreamState) (j : StreamJson),
      StepOk s.pending s.contentBlockIndex (messageStartStep s j).1
        (messageStartStep s j).2.pending
        (messageStartStep s j).2.contentBlockIndex := by
  intro s j
  unfold messageStartStep
  split
  · refine stepOk_neutral _ _ _ ?_
    intro e he
    simp at he
    subst he
    rfl
  · exact stepOk_nil _ _

/-- Each parsed frame satisfies the step contract. -/
theorem stepOk_processFrame :
    ∀ (jp : String → Option Json) (s : StreamState) (j : StreamJson),
      StepOk s.pending s.contentBlockIndex (processFrame jp s j).1
        (processFrame jp s j).2.pending
        (processFrame jp s j).2.contentBlockIndex := by
  intro jp s j
  unfold processFrame
  split
  · next evts heq =>
      exact stepOk_neutral _ _ _ (maybeHandleReasoningEvent_neutral s _ _ evts heq)
  · dsimp only
    obtain ⟨hp, hi⟩ := extractFrameState_preserves s j
    split
    · have h := stepOk_closePending (extractFrameState s j)
      rw [hp, hi] at h
      simpa [hi] using h
    · have h1 := stepOk_messageStartStep (extractFrameState s j) j
      rw [hp, hi] at h1
      split
      · next items heqo =>
          exact stepOk_trans h1
            (stepOk_processItemsS items jp (messageStartStep (extractFrameState s j) j).2)
      · simpa using stepOk_trans h1 (stepOk_nil _ _)

/-- The whole line loop satisfies the step contract: its events open
blocks at consecutive indices from 0, keep at most one block open, and
contain no terminal events. -/
theorem stepOk_runStreamLines :
    ∀ (lines : List SseLine) (jp : String → Option Json) (s : StreamState),
      StepOk s.pending s.contentBlockIndex (runStreamLines jp s lines).1
        (runStreamLines jp s lines).2.1.pending
        (runStreamLines jp s lines).2.1.contentBlockIndex := by
  intro lines
  induction lines with
  | nil => intro jp s; exact stepOk_nil _ _
  | cons l rest ih =>
      intro jp s
      cases l with
      | notData => exact ih jp s
      | malformed => exact ih jp s
      | doneFrame => exact stepOk_nil _ _
      | frame j =>
          exact stepOk_trans (stepOk_processFrame jp s j) (ih jp (processFrame jp s j).2)

/-- The `[DONE]` termination sequence opens no block. -/
theorem doneEvents_startIndices :
    ∀ s : StreamState, startIndices (doneEvents s) = [] := by
  intro s
  unfold doneEvents closePendingEvents
  cases hp : s.pending <;> rfl

/-- The clean-end termination sequence opens no block. -/
theorem cleanEndEvents_startIndices :
    ∀ s : StreamState, startIndices (cleanEndEvents s) = [] := by
  intro s
  unfold cleanEndEvents closePendingEvents
  cases hp : s.pending <;> rfl

/-- The `[DONE]` termination sequence closes the open block, if any. -/
theorem doneEvents_nestScan :
    ∀ s : StreamState, nestScan s.pending (doneEvents s) = some none := by
  intro s
  unfold doneEvents closePendingEvents
  cases hp : s.pending with
  | none => rfl
  | some p => simp [nestScan]

/-- The clean-end termination sequence closes the open block, if any. -/
theorem cleanEndEvents_nestScan :
    ∀ s : StreamState, nestScan s.pending (cleanEndEvents s) = some none := by
  intro s
  unfold cleanEndEvents closePendingEvents
  cases hp : s.pending with
  | none => rfl
  | some p => simp [nestScan]

/-- The terminal events of the `[DONE]` sequence: exactly one
`message_delta` carrying the tracked stop reason and the enriched usage
snapshot, then exactly one `message_stop`. -/
theorem doneEvents_filterTerminal :
    ∀ s : StreamState,
      (doneEvents s).filter isTerminalEvent =
        [ .message_delta s.stopReason
            (attachToolUseUsage (mapOpenAIUsageToClaude s.usage) (getWebSearchRequestCount s))
        , .message_stop ] := by
  intro s
  unfold doneEvents closePendingEvents
  cases hp : s.pending <;> rfl

/-- The terminal events of the clean-end sequence: one `message_delta`
with the *unenriched* usage snapshot, then one `message_stop`. -/
theorem cleanEndEvents_filterTerminal :
    ∀ s : StreamState,
      (cleanEndEvents s).filter isTerminalEvent =
        [ .message_delta s.stopReason (mapOpenAIUsageToClaude s.usage)
        , .message_stop ] := by
  intro s
  unfold cleanEndEvents closePendingEvents
  cases hp : s.pending <;> rfl

/-- Both termination sequences end in `message_stop`. -/
theorem doneEvents_getLast :
    ∀ s : StreamState, (doneEvents s).getLast? = some .message_stop := by
  intro s
  unfold doneEvents closePendingEvents
  cases hp : s.pending <;> rfl

/-- The clean-end sequence ends in `message_stop`. -/
theorem cleanEndEvents_getLast :
    ∀ s : StreamState, (cleanEndEvents s).getLast? = some .message_stop := by
  intro s
  unfold cleanEndEvents closePendingEvents
  cases hp : s.pending <;> rfl

/-- A successful consecutiveness check only moves forward. -/
theorem consecFrom_le :
    ∀ (l : List Nat) (n m : Nat), consecFrom n l = some m → n ≤ m := by
  intro l
  induction l with
  | nil =>
      intro n m h
      simp only [consecFrom] at h
      cases h
      exact Nat.le_refl n
  | cons i rest ih =>
      intro n m h
      by_cases hi : i = n
      · subst hi
        simp only [consecFrom, if_pos rfl] at h
        exact Nat.le_of_succ_le (ih _ _ h)
      · simp [consecFrom, hi] at h

/-- A list passing the consecutiveness check from `n` up to `m` is
exactly `range' n (m - n)`. -/
theorem consecFrom_eq_range' :
    ∀ (l : List Nat) (n m : Nat), consecFrom n l = some m → l = List.range' n (m - n) := by
  intro l
  induction l with
  | nil =>
      intro n m h
      simp only [consecFrom] at h
      cases h
      simp
  | cons i rest ih =>
      intro n m h
      by_cases hi : i = n
      · subst hi
        simp only [consecFrom, if_pos rfl] at h
        have hle := consecFrom_le rest (i + 1) m h
        have hrest := ih _ _ h
        have hmn : m - i = (m - (i + 1)) + 1 := by omega
        rw [hmn, List.range'_succ, ← hrest]
      · simp [consecFrom, hi] at h

/-- C1: for every inbound event stream (any line sequence, any trailing
buffer, any parse function), the emitted `content_block_start` indices
are exactly `0, 1, 2, …` in discovery order, and the block events are
well nested — at most one block open at a time, every opened block closed
before the next opens or before the stream ends. -/
theorem c1_stream_block_ordering :
    ∀ (jp : String → Option Json) (lines : List SseLine) (finalBufferIsDone : Bool),
      ∃ n, startIndices (createClaudeStream jp lines finalBufferIsDone) = List.range n
        ∧ nestScan none (createClaudeStream jp lines finalBufferIsDone) = some none := by
  intro jp lines fin
  obtain ⟨h1, h2, h3⟩ := stepOk_runStreamLines lines jp {}
  refine ⟨(runStreamLines jp {} lines).2.1.contentBlockIndex, ?_, ?_⟩
  · unfold createClaudeStream
    rw [startIndices_append]
    have he : startIndices
        (if (runStreamLines jp {} lines).2.2 || fin then
          doneEvents (runStreamLines jp {} lines).2.1
        else cleanEndEvents (runStreamLines jp {} lines).2.1) = [] := by
      split
      · exact doneEvents_startIndices _
      · exact cleanEndEvents_startIndices _
    rw [he, List.append_nil]
    have hr := consecFrom_eq_range' _ _ _ h1
    simpa [List.range_eq_range'] using hr
  · unfold createClaudeStream
    rw [nestScan_append _ _ _ _ h2]
    split
    · exact doneEvents_nestScan _
    · exact cleanEndEvents_nestScan _

/-- C2 (amended): the termination sequence runs exactly once whichever
end condition fires — any open block is closed (well-nestedness to the
no-open state), exactly one `message_delta` and one terminal
`message_stop` are emitted, the `message_delta` carries the tracked final
stop reason, and its usage snapshot is enriched with the web-search
counter on the two `[DONE]` paths but NOT on the clean-stream-end path,
where the snapshot is emitted unenriched. -/
theorem c2_termination_sequence :
    ∀ (jp : String → Option Json) (lines : List SseLine) (finalBufferIsDone : Bool),
      ((createClaudeStream jp lines finalBufferIsDone).filter isTerminalEvent =
        [ .message_delta (runStreamLines jp {} lines).2.1.stopReason
            (if (runStreamLines jp {} lines).2.2 || finalBufferIsDone then
              attachToolUseUsage
                (mapOpenAIUsageToClaude (runStreamLines jp {} lines).2.1.usage)
                (getWebSearchRequestCount (runStreamLines jp {} lines).2.1)
            else mapOpenAIUsageToClaude (runStreamLines jp {} lines).2.1.usage)
        , .message_stop ])
      ∧ (createClaudeStream jp lines finalBufferIsDone).getLast? = some .message_stop
      ∧ nestScan none (createClaudeStream jp lines finalBufferIsDone) = some none := by
  intro jp lines fin
  obtain ⟨h1, h2, h3⟩ := stepOk_runStreamLines lines jp {}
  unfold createClaudeStream
  dsimp only
  cases hb : ((runStreamLines jp {} lines).2.2 || fin) with
  | true =>
      refine ⟨?_, ?_, ?_⟩
      · rw [if_pos rfl, List.filter_append, h3, List.nil_append,
          doneEvents_filterTerminal, if_pos rfl]
      · rw [if_pos rfl, List.getLast?_append, doneEvents_getLast]
        rfl
      · rw [if_pos rfl, nestScan_append _ _ _ _ h2]
        exact doneEvents_nestScan _
  | false =>
      have hneg : ¬((false : Bool) = true) := by simp
      refine ⟨?_, ?_, ?_⟩
      · rw [if_neg hneg, List.filter_append, h3, List.nil_append,
          cleanEndEvents_filterTerminal, if_neg hneg]
      · rw [if_neg hneg, List.getLast?_append, cleanEndEvents_getLast]
        rfl
      · rw [if_neg hneg, nestScan_append _ _ _ _ h2]
        exact cleanEndEvents_nestScan _

/-- C2 counterexample: a stream carrying usage and one web-search call
that ends cleanly without `[DONE]` emits its final `message_delta` with
the plain usage snapshot — the web-search counter (which stands at 1) is
NOT attached, contradicting the claim that all three end conditions
enrich the final usage alike. -/
theorem c2_counterexample :
    (createClaudeStream (fun _ => none) c2Lines false).filter isTerminalEvent =
      [ .message_delta none (some { output_tokens := some 7 }), .message_stop ]
    ∧ getWebSearchRequestCount (runStreamLines (fun _ => none) {} c2Lines).2.1 = 1
    ∧ attachToolUseUsage (some { output_tokens := some 7 }) 1
        = some { output_tokens := some 7, server_tool_use := some 1 }
    ∧ (some { output_tokens := some 7 } : Option ClaudeUsage)
        ≠ some { output_tokens := some 7, server_tool_use := some 1 } := by
  refine ⟨by decide, by decide, by decide, by decide⟩
